import Mathlib

/-!
Shallow embedding of the scatter-gather ring logic of the Xilinx AXI DMA
driver (`drivers/dma/dma_xilinx_axi_dma.c`).

Modelling conventions:
* 32-bit hardware words are `Nat` values; the code's masking operations are
  reproduced with `&&&` / `|||` on the literal masks from the source.
* We model the build without `CONFIG_DMA_64BIT` (the `#ifdef` else-branches),
  so the `_msb` halves of addresses are never written.
* Cache flush/invalidate and memory barriers have no effect on the state we
  model (a single coherent view of the descriptor ring); interrupt
  lock/unlock calls are recorded as events so that lock/unlock pairing can
  be stated.
* Hardware register reads are supplied as explicit oracle values (the next
  value the `sys_read32` would return); register writes that matter to a
  claim are recorded as `(register, value)` pairs.
-/

/-! ### Constants from the source (`#define`s, lines 25-125) -/

def XILINX_AXI_DMA_SG_DESCRIPTOR_CTRL_SOF_MASK : Nat := 0x08000000

def XILINX_AXI_DMA_SG_DESCRIPTOR_CTRL_EOF_MASK : Nat := 0x04000000

def XILINX_AXI_DMA_SG_DESCRIPTOR_CTRL_LENGTH_MASK : Nat := 0x03FFFFFF

def XILINX_AXI_DMA_SG_DESCRIPTOR_STATUS_LENGTH_MASK : Nat := 0x03FFFFFF

def XILINX_AXI_DMA_SG_DESCRIPTOR_STATUS_COMPLETE_MASK : Nat := 0x80000000

def XILINX_AXI_DMA_SG_DESCRIPTOR_STATUS_DEC_ERR_MASK : Nat := 0x40000000

def XILINX_AXI_DMA_SG_DESCRIPTOR_STATUS_SLV_ERR_MASK : Nat := 0x20000000

def XILINX_AXI_DMA_SG_DESCRIPTOR_STATUS_INT_ERR_MASK : Nat := 0x10000000

def XILINX_AXI_DMA_SG_DESCRIPTOR_STATUS_TRANSFERRED_MASK : Nat := 0x03FFFFFF

/-- The complement of the transferred-length mask within a 32-bit word:
the loop guard of the completion sweep tests
`status & ~XILINX_AXI_DMA_SG_DESCRIPTOR_STATUS_TRANSFERRED_MASK`. -/
def XILINX_AXI_DMA_SG_DESCRIPTOR_STATUS_NOT_TRANSFERRED_MASK : Nat := 0xFC000000

def XILINX_AXI_DMA_SG_DESCRIPTOR_APP0_CHECKSUM_OFFLOAD_FULL : Nat := 0x00000002

def XILINX_AXI_DMA_SG_DESCRIPTOR_APP0_CHECKSUM_OFFLOAD_NONE : Nat := 0x00000000

def XILINX_AXI_DMA_SG_DESCRIPTOR_APP2_FCS_ERR_MASK : Nat := 0x00000100

def XILINX_AXI_DMA_SG_DESCRIPTOR_APP2_IP_ERR_MASK : Nat := 0x00000028

def XILINX_AXI_DMA_SG_DESCRIPTOR_APP2_UDP_ERR_MASK : Nat := 0x00000030

def XILINX_AXI_DMA_SG_DESCRIPTOR_APP2_TCP_ERR_MASK : Nat := 0x00000038

def XILINX_AXI_DMA_REGS_DMACR_IRQTHRESH_SHIFT_BITS : Nat := 16

def XILINX_AXI_DMA_REGS_DMACR_IRQDELAY_SHIFT_BITS : Nat := 24

def XILINX_AXI_DMA_REGS_DMACR_ERR_IRQEN : Nat := 0x00004000

def XILINX_AXI_DMA_REGS_DMACR_DLY_IRQEN : Nat := 0x00002000

def XILINX_AXI_DMA_REGS_DMACR_IOC_IRQEN : Nat := 0x00001000

def XILINX_AXI_DMA_REGS_DMACR_CYC_BD_EN : Nat := 0x00000010

def XILINX_AXI_DMA_REGS_DMACR_KEYHOLE : Nat := 0x00000008

def XILINX_AXI_DMA_REGS_DMACR_RESET : Nat := 0x00000004

def XILINX_AXI_DMA_REGS_DMACR_RS : Nat := 0x00000001

def XILINX_AXI_DMA_REGS_DMASR_ERR_IRQ : Nat := 0x00004000

def XILINX_AXI_DMA_REGS_DMASR_DLY_IRQ : Nat := 0x00002000

def XILINX_AXI_DMA_REGS_DMASR_IOC_IRQ : Nat := 0x00001000

def XILINX_AXI_DMA_REGS_DMASR_IDLE : Nat := 0x00000002

def XILINX_AXI_DMA_REGS_DMASR_HALTED : Nat := 0x00000001

/-- Per-direction register byte offsets (`enum AxiDmaDirectionRegister`). -/
def XILINX_AXI_DMA_REG_DMACR : Nat := 0x00

def XILINX_AXI_DMA_REG_DMASR : Nat := 0x04

def XILINX_AXI_DMA_REG_CURDESC : Nat := 0x08

def XILINX_AXI_DMA_REG_TAILDESC : Nat := 0x10

def XILINX_AXI_DMA_MM2S_REG_OFFSET : Nat := 0x00

def XILINX_AXI_DMA_S2MM_REG_OFFSET : Nat := 0x30

/-- `UINT32_MAX`, the bound actually tested by `transfer_block`. -/
def UINT32_MAX : Nat := 4294967295

/-- TX channel index (the header is not in `src/`, but the source states
"TX is 0, RX is 1" at the `irq` bookkeeping in `lock_irq`). -/
def XILINX_AXI_DMA_TX_CHANNEL_NUM : Nat := 0

/-- RX channel index ("TX is 0, RX is 1"). -/
def XILINX_AXI_DMA_RX_CHANNEL_NUM : Nat := 1

/-- The fixed channel count required by `dma_xilinx_axi_dma_init`
("this should always be 2 - one for TX, one for RX"). -/
def XILINX_AXI_DMA_NUM_CHANNELS : Nat := 2

/-- Modelled from the spec: `dma_xilinx_axi_dma.h` is not under `src/`; it
defines the linked-channel selector for full checksum offload.  The spec
says the selector has "exactly two valid values"; we model them as two
distinct naturals. -/
def XILINX_AXI_DMA_LINKED_CHANNEL_FULL_CSUM_OFFLOAD : Nat := 0

/-- Modelled from the spec: the second valid linked-channel selector value
(no checksum offload). -/
def XILINX_AXI_DMA_LINKED_CHANNEL_NO_CSUM_OFFLOAD : Nat := 1

/-- Zephyr errno values (external interface): `EIO`. -/
def EIOerrno : Int := 5

/-- Zephyr errno: `EFAULT`. -/
def EFAULT : Int := 14

/-- Zephyr errno: `EBUSY`. -/
def EBUSY : Int := 16

/-- Zephyr errno: `EINVAL`. -/
def EINVAL : Int := 22

/-- Zephyr errno: `ENOTSUP`. -/
def ENOTSUP : Int := 134

/-- Zephyr `enum dma_status` success value passed to completion callbacks. -/
def DMA_STATUS_COMPLETE : Int := 0

/-! ### Data model -/

/-- One in-memory scatter-gather descriptor
(`struct dma_xilinx_axi_dma_sg_descriptor`, 13 32-bit words). -/
structure Descriptor where
  nxtdesc : Nat
  nxtdesc_msb : Nat
  buffer_address : Nat
  buffer_address_msb : Nat
  reserved1 : Nat
  reserved2 : Nat
  control : Nat
  status : Nat
  app0 : Nat
  app1 : Nat
  app2 : Nat
  app3 : Nat
  app4 : Nat
deriving DecidableEq

/-- The all-zero descriptor (descriptors live in a zero-initialized
static segment). -/
def zeroDescriptor : Descriptor :=
  ⟨0, 0, 0, 0, 0, 0, 0, 0, 0, 0, 0, 0, 0⟩

/-- Zephyr `enum dma_channel_direction` (the values used by this driver;
`MEMORY_TO_MEMORY` is the enum's zero value, i.e. what zero-initialized
static storage holds before `init` assigns a direction). -/
inductive Direction where
  | memoryToMemory
  | memoryToPeripheral
  | peripheralToMemory
deriving DecidableEq

/-- Per-channel state (`struct dma_xilinx_axi_dma_channel`).  The
descriptor array is modelled as a total function from slot index to
descriptor; only indices below `num_descriptors` are meaningful.  The
completion callback pointer is modelled by whether it is non-NULL. -/
structure Channel where
  descriptors : Nat → Descriptor
  num_descriptors : Nat
  populated_desc_index : Nat
  completion_desc_index : Nat
  channel_regs : Nat
  direction : Direction
  hasCompletionCallback : Bool
  last_rx_size : Nat
  sg_desc_app0 : Nat
  check_csum_in_isr : Bool

/-- A channel as found in the zero-initialized static channel array,
before `init`/`configure` touch it. -/
def zeroChannel : Channel where
  descriptors := fun _ => zeroDescriptor
  num_descriptors := 0
  populated_desc_index := 0
  completion_desc_index := 0
  channel_regs := 0
  direction := Direction.memoryToMemory
  hasCompletionCallback := false
  last_rx_size := 0
  sg_desc_app0 := 0
  check_csum_in_isr := false

/-- Device state: exactly two channels (`struct dma_xilinx_axi_dma_data`). -/
structure DeviceState where
  tx : Channel
  rx : Channel

/-- Build-time configuration relevant to `transfer_block`:
whether `CONFIG_DMA_XILINX_AXI_DMA_DISABLE_CACHE_WHEN_ACCESSING_SG_DESCRIPTORS`
is set, and the value of `sys_cache_data_line_size_get()`. -/
structure BuildCfg where
  cacheDisabled : Bool
  cacheLineSize : Nat

/-- Interrupt-exclusion events emitted by an operation, in order. -/
inductive LockEv where
  | acquire
  | release
deriving DecidableEq

/-- Events emitted by one completion sweep, in order:
a completion-callback invocation for a descriptor slot (with the logical
channel number and the result value passed to the callback), or the
clearing of a slot's control/status words. -/
inductive SweepEv where
  | callback (slot : Nat) (chan : Nat) (result : Int)
  | clear (slot : Nat)
deriving DecidableEq

/-! ### Small helpers shared by the operations -/

/-- Pointwise update of one slot of a descriptor array. -/
def updateDesc (descs : Nat → Descriptor) (i : Nat) (f : Descriptor → Descriptor) :
    Nat → Descriptor :=
  fun j => if j = i then f (descs j) else descs j

/-- The source's wrap-around pattern `if (idx >= num) idx = 0;`. -/
def wrapIdx (n i : Nat) : Nat :=
  if i ≥ n then 0 else i

/-- The slot probed by `transfer_block`:
`populated_desc_index + 1`, wrapped (lines 640-644). -/
def nextDescIndex (ch : Channel) : Nat :=
  wrapIdx ch.num_descriptors (ch.populated_desc_index + 1)

/-- The control word written by `transfer_block` (lines 690-700):
the block size, with SOF OR-ed in for the first and EOF for the last
block of a transfer. -/
def ctrlWord (blockSize : Nat) (isFirst isLast : Bool) : Nat :=
  let c := blockSize
  let c := if isFirst then c ||| XILINX_AXI_DMA_SG_DESCRIPTOR_CTRL_SOF_MASK else c
  let c := if isLast then c ||| XILINX_AXI_DMA_SG_DESCRIPTOR_CTRL_EOF_MASK else c
  c

/-! ### Submission (`dma_xilinx_axi_dma_transfer_block`, lines 630-711) -/

/-- One submission.  Returns the C return value, the updated channel and
the interrupt-exclusion events, in program order:
1. lock; compute the next slot and inspect it — if its control or status
   word is non-zero, unlock and return `-EBUSY` with nothing mutated;
2. for a non-TX channel with the cache-disable build option, reject a
   buffer address or length not aligned to the cache line (unlock,
   `-EINVAL`);
3. write the buffer address and `app0` into the descriptor;
4. if the block size exceeds `UINT32_MAX`, unlock and return `-EINVAL`
   (note: the buffer address and `app0` were already written);
5. write the control word, advance `populated_desc_index`, unlock. -/
def transferBlock (cfg : BuildCfg) (channel : Nat) (ch : Channel)
    (bufferAddr blockSize : Nat) (isFirst isLast : Bool) :
    Int × Channel × List LockEv :=
  if (ch.descriptors (nextDescIndex ch)).control ≠ 0 ∨
      (ch.descriptors (nextDescIndex ch)).status ≠ 0 then
    (-EBUSY, ch, [LockEv.acquire, LockEv.release])
  else if channel ≠ XILINX_AXI_DMA_TX_CHANNEL_NUM ∧ cfg.cacheDisabled = true ∧
      (bufferAddr &&& (cfg.cacheLineSize - 1) ≠ 0 ∨
       blockSize &&& (cfg.cacheLineSize - 1) ≠ 0) then
    (-EINVAL, ch, [LockEv.acquire, LockEv.release])
  else if blockSize > UINT32_MAX then
    (-EINVAL,
      { ch with
        descriptors := updateDesc ch.descriptors (nextDescIndex ch)
          (fun dd => { dd with buffer_address := bufferAddr, app0 := ch.sg_desc_app0 }) },
      [LockEv.acquire, LockEv.release])
  else
    (0,
      { ch with
        descriptors := updateDesc
          (updateDesc ch.descriptors (nextDescIndex ch)
            (fun dd => { dd with buffer_address := bufferAddr, app0 := ch.sg_desc_app0 }))
          (nextDescIndex ch)
          (fun dd => { dd with control := ctrlWord blockSize isFirst isLast })
        populated_desc_index := nextDescIndex ch },
      [LockEv.acquire, LockEv.release])

/-! ### Completion sweep (`dma_xilinx_axi_dma_clean_up_sg_descriptors`,
lines 312-418) -/

/-- The per-descriptor result classification performed inside the sweep
loop (lines 327-381): starts from `DMA_STATUS_COMPLETE`, downgraded to
`-EFAULT` by the decode/slave/internal error status bits and, when
checksum inspection is enabled, by the FCS/IP/UDP/TCP patterns in `app2`. -/
def descRetval (checkCsum : Bool) (status app2 : Nat) : Int :=
  let r := DMA_STATUS_COMPLETE
  let r := if status &&& XILINX_AXI_DMA_SG_DESCRIPTOR_STATUS_DEC_ERR_MASK ≠ 0 then -EFAULT else r
  let r := if status &&& XILINX_AXI_DMA_SG_DESCRIPTOR_STATUS_SLV_ERR_MASK ≠ 0 then -EFAULT else r
  let r := if status &&& XILINX_AXI_DMA_SG_DESCRIPTOR_STATUS_INT_ERR_MASK ≠ 0 then -EFAULT else r
  if checkCsum then
    let r := if app2 &&& XILINX_AXI_DMA_SG_DESCRIPTOR_APP2_FCS_ERR_MASK ≠ 0 then -EFAULT else r
    let r := if app2 &&& XILINX_AXI_DMA_SG_DESCRIPTOR_APP2_IP_ERR_MASK =
        XILINX_AXI_DMA_SG_DESCRIPTOR_APP2_IP_ERR_MASK then -EFAULT else r
    let r := if app2 &&& XILINX_AXI_DMA_SG_DESCRIPTOR_APP2_UDP_ERR_MASK =
        XILINX_AXI_DMA_SG_DESCRIPTOR_APP2_UDP_ERR_MASK then -EFAULT else r
    let r := if app2 &&& XILINX_AXI_DMA_SG_DESCRIPTOR_APP2_TCP_ERR_MASK =
        XILINX_AXI_DMA_SG_DESCRIPTOR_APP2_TCP_ERR_MASK then -EFAULT else r
    r
  else
    r

/-- The logical channel number passed to the completion callback
(line 393-395): TX for memory-to-peripheral, RX otherwise. -/
def callbackChannel (dir : Direction) : Nat :=
  if dir = Direction.memoryToPeripheral then XILINX_AXI_DMA_TX_CHANNEL_NUM
  else XILINX_AXI_DMA_RX_CHANNEL_NUM

/-- The sweep's loop guard (line 325): the descriptor at
`completion_desc_index` has some status bit outside the
transferred-length field (complete or an error flag). -/
def sweepGuard (ch : Channel) : Prop :=
  (ch.descriptors ch.completion_desc_index).status &&&
    XILINX_AXI_DMA_SG_DESCRIPTOR_STATUS_NOT_TRANSFERRED_MASK ≠ 0

instance (ch : Channel) : Decidable (sweepGuard ch) := by
  unfold sweepGuard; infer_instance

/-- The state change of one sweep-loop iteration (lines 330-413):
`last_rx_size` is updated from the status word, the descriptor's control
and status are cleared, and `completion_desc_index` advances with
wrap-around. -/
def sweepStepChannel (ch : Channel) : Channel :=
  { ch with
    last_rx_size := (ch.descriptors ch.completion_desc_index).status &&&
      XILINX_AXI_DMA_SG_DESCRIPTOR_STATUS_LENGTH_MASK
    descriptors := updateDesc ch.descriptors ch.completion_desc_index
      (fun dd => { dd with control := 0, status := 0 })
    completion_desc_index := wrapIdx ch.num_descriptors (ch.completion_desc_index + 1) }

/-- The events of one sweep-loop iteration, in program order: the
callback invocation (if a callback is registered), then the clearing of
the slot's control/status words. -/
def sweepStepEvents (ch : Channel) : List SweepEv :=
  (if ch.hasCompletionCallback then
    [SweepEv.callback ch.completion_desc_index (callbackChannel ch.direction)
      (descRetval ch.check_csum_in_isr
        (ch.descriptors ch.completion_desc_index).status
        (ch.descriptors ch.completion_desc_index).app2)]
   else []) ++ [SweepEv.clear ch.completion_desc_index]

/-- The completion sweep, fuel-indexed (the C `while` loop; each unit of
fuel allows one loop-iteration test).  Returns the final channel,
`processed_packets`, and the event list. -/
def cleanUpSgDescriptors (ch : Channel) : Nat → Channel × Nat × List SweepEv
  | 0 => (ch, 0, [])
  | fuel + 1 =>
    if sweepGuard ch then
      let rest := cleanUpSgDescriptors (sweepStepChannel ch) fuel
      (rest.1, rest.2.1 + 1, sweepStepEvents ch ++ rest.2.2)
    else
      (ch, 0, [])

/-- The sweep as invoked from the interrupt handlers, with enough fuel
that the loop always reaches its real exit condition (the loop clears
each slot it processes, so it can never take more than
`num_descriptors` iterations). -/
def sweepRun (ch : Channel) : Channel × Nat × List SweepEv :=
  cleanUpSgDescriptors ch (ch.num_descriptors + 1)

/-- The channel state after one full completion sweep. -/
def sweepChannel (ch : Channel) : Channel := (sweepRun ch).1

/-- The number of descriptors the sweep reclaimed (`processed_packets`). -/
def sweepSteps (ch : Channel) : Nat := (sweepRun ch).2.1

/-- The events one full completion sweep emits. -/
def sweepEvents (ch : Channel) : List SweepEv := (sweepRun ch).2.2

/-! ### `dma_xilinx_axi_dma_start` (lines 496-572) -/

/-- The `DMACR` value programmed when starting a halted channel
(lines 522-547), with the build-time interrupt threshold and timeout. -/
def startControlWord (irqThreshold irqTimeout : Nat) : Nat :=
  let c := 0 ||| XILINX_AXI_DMA_REGS_DMACR_RS
  let c := c &&& (UINT32_MAX - XILINX_AXI_DMA_REGS_DMACR_RESET)
  let c := c &&& (UINT32_MAX - XILINX_AXI_DMA_REGS_DMACR_KEYHOLE)
  let c := c &&& (UINT32_MAX - XILINX_AXI_DMA_REGS_DMACR_CYC_BD_EN)
  let c := c ||| XILINX_AXI_DMA_REGS_DMACR_IOC_IRQEN
  let c := c ||| XILINX_AXI_DMA_REGS_DMACR_DLY_IRQEN
  let c := c ||| XILINX_AXI_DMA_REGS_DMACR_ERR_IRQEN
  let c := c ||| (irqThreshold <<< XILINX_AXI_DMA_REGS_DMACR_IRQTHRESH_SHIFT_BITS)
  let c := c ||| (irqTimeout <<< XILINX_AXI_DMA_REGS_DMACR_IRQDELAY_SHIFT_BITS)
  c

/-- The address of descriptor slot `i` of a ring whose storage starts at
`base` (the descriptors are 64 bytes each, 64-byte aligned). -/
def descAddrOf (base i : Nat) : Nat := base + 64 * i

/-- `start`: under interrupt exclusion, reject an invalid channel number
(`-EINVAL`), otherwise if the status register reports HALTED program
`DMACR`, then write the tail-descriptor register with the address of the
currently populated descriptor.  `dmasr` is the oracle value for the one
`DMASR` read; `base` is the channel's descriptor storage base.  Returns
the C return value, the lock events, and the register writes
`(register, value)` in order. -/
def dmaStart (numChannels channel irqThreshold irqTimeout : Nat)
    (ch : Channel) (base dmasr : Nat) : Int × List LockEv × List (Nat × Nat) :=
  if channel ≥ numChannels then
    (-EINVAL, [LockEv.acquire, LockEv.release], [])
  else
    let tailAddr := descAddrOf base ch.populated_desc_index
    let ctrlWrites :=
      if dmasr &&& XILINX_AXI_DMA_REGS_DMASR_HALTED ≠ 0 then
        [(XILINX_AXI_DMA_REG_DMACR, startControlWord irqThreshold irqTimeout)]
      else []
    (0, [LockEv.acquire, LockEv.release],
      ctrlWrites ++ [(XILINX_AXI_DMA_REG_TAILDESC, tailAddr)])

/-- `stop` (lines 574-598): reject an invalid channel, otherwise clear
run-stop in `DMACR` (read oracle `dmacr`).  Returns the C return value
and the register write. -/
def dmaStop (numChannels channel : Nat) (dmacr : Nat) : Int × List (Nat × Nat) :=
  if channel ≥ numChannels then (-EINVAL, [])
  else
    let newControl := dmacr &&& (UINT32_MAX - XILINX_AXI_DMA_REGS_DMACR_RS)
    (0, [(XILINX_AXI_DMA_REG_DMACR, newControl)])

/-- `get_status` (lines 600-624): reject an invalid channel, otherwise
report `busy` (neither idle nor halted, from two `DMASR` reads `read0`
and `read1`) and the channel's direction field. -/
def dmaGetStatus (numChannels channel : Nat) (ch : Channel)
    (read0 read1 : Nat) : Int × Option (Bool × Direction) :=
  if channel ≥ numChannels then (-EINVAL, none)
  else
    let busy := ¬ (read0 &&& XILINX_AXI_DMA_REGS_DMASR_IDLE ≠ 0) ∧
                ¬ (read1 &&& XILINX_AXI_DMA_REGS_DMASR_HALTED ≠ 0)
    (0, some (decide busy, ch.direction))

/-! ### `dma_xilinx_axi_dma_init` (lines 906-956) -/

/-- The channel-field assignments of `dma_xilinx_axi_dma_init`
(lines 919-931).  Mirrors the source faithfully, including line 931,
which assigns `PERIPHERAL_TO_MEMORY` to the **TX** channel slot a second
time (the RX channel's direction field is never assigned). -/
def dmaInitChannels (numTx numRx regBase : Nat) (dev : DeviceState) : DeviceState :=
  let tx :=
    { dev.tx with
      descriptors := fun _ => zeroDescriptor
      num_descriptors := numTx
      channel_regs := regBase + XILINX_AXI_DMA_MM2S_REG_OFFSET
      direction := Direction.memoryToPeripheral }
  let rx :=
    { dev.rx with
      descriptors := fun _ => zeroDescriptor
      num_descriptors := numRx
      channel_regs := regBase + XILINX_AXI_DMA_S2MM_REG_OFFSET }
  let tx := { tx with direction := Direction.peripheralToMemory }
  ⟨tx, rx⟩

/-- The bounded soft-reset poll (lines 939-948): up to 1000 `DMACR`
reads; the reset succeeded as soon as a read has the reset bit clear. -/
def dmaResetCleared (dmacrReads : Nat → Nat) : Bool :=
  (List.range 1000).any
    (fun i => dmacrReads i &&& XILINX_AXI_DMA_REGS_DMACR_RESET == 0)

/-- Device initialization (lines 906-956): reject a channel count other
than 2, assign the channel fields, soft-reset with the bounded poll
(read oracle `dmacrReads`), and on success call `irq_configure`.
Returns the C return value, the device state, and whether
`irq_configure` was called (channels armed). -/
def dmaInit (cfgChannels numTx numRx regBase : Nat) (dmacrReads : Nat → Nat)
    (dev : DeviceState) : Int × DeviceState × Bool :=
  if cfgChannels ≠ XILINX_AXI_DMA_NUM_CHANNELS then (-EINVAL, dev, false)
  else if dmaResetCleared dmacrReads then
    (0, dmaInitChannels numTx numRx regBase dev, true)
  else (-EIOerrno, dmaInitChannels numTx numRx regBase dev, false)

/-! ### `dma_xilinx_axi_dma_configure` (lines 734-877) -/

/-- Zephyr `enum dma_addr_adj`. -/
inductive AddrAdj where
  | increment
  | decrement
  | noChange
deriving DecidableEq

/-- One `struct dma_block_config` as consumed by `configure`. -/
structure BlockCfg where
  source_address : Nat
  dest_address : Nat
  block_size : Nat
  source_addr_adj : AddrAdj
  dest_addr_adj : AddrAdj

/-- The `struct dma_config` fields consumed by `configure`; the block
chain is the head block followed by the rest of the linked list. -/
structure DmaCfg where
  headBlock : BlockCfg
  tailBlocks : List BlockCfg
  channel_direction : Direction
  linked_channel : Nat
  hasCallback : Bool

/-- One recorded call of the per-block submission loop, with the flags
`configure` passed and the `transfer_block` result. -/
structure SubmitCall where
  bufferAddr : Nat
  blockSize : Nat
  isFirst : Bool
  isLast : Bool
  result : Int
deriving DecidableEq

/-- The `configure` descriptor-ring rebuild (lines 785-816): resets the
two cursors (`populated = num - 1`, `completion = 0`) and rewrites every
slot's next-descriptor link to the address of the following slot, the
last slot linking back to slot 0.  Note that only `nxtdesc` is written in
each descriptor ("only configures fields whos default is not 0, as
descriptors are in zero-initialized segment"). -/
def ringRebuild (base : Nat) (ch : Channel) : Channel :=
  { ch with
    populated_desc_index := ch.num_descriptors - 1
    completion_desc_index := 0
    descriptors := fun i =>
      if i < ch.num_descriptors then
        { ch.descriptors i with
          nxtdesc :=
            if i + 1 < ch.num_descriptors then descAddrOf base (i + 1)
            else descAddrOf base 0 }
      else ch.descriptors i }

/-- The `linked_channel` switch (lines 834-858): full checksum offload
sets `app0` on TX and enables ISR checksum inspection on RX; no offload
clears `app0`; anything else is invalid. -/
def applyLinkedChannel (channel : Nat) (ch : Channel) (lc : Nat) : Option Channel :=
  if lc = XILINX_AXI_DMA_LINKED_CHANNEL_FULL_CSUM_OFFLOAD then
    if channel = XILINX_AXI_DMA_TX_CHANNEL_NUM then
      some { ch with sg_desc_app0 := XILINX_AXI_DMA_SG_DESCRIPTOR_APP0_CHECKSUM_OFFLOAD_FULL }
    else
      some { ch with check_csum_in_isr := true }
  else if lc = XILINX_AXI_DMA_LINKED_CHANNEL_NO_CSUM_OFFLOAD then
    some { ch with sg_desc_app0 := XILINX_AXI_DMA_SG_DESCRIPTOR_APP0_CHECKSUM_OFFLOAD_NONE }
  else none

/-- The buffer address `configure` passes for a block: the source
address on the TX channel, the destination address otherwise. -/
def blockAddr (channel : Nat) (b : BlockCfg) : Nat :=
  if channel = XILINX_AXI_DMA_TX_CHANNEL_NUM then b.source_address
  else b.dest_address

/-- The per-block submission loop of `configure` (lines 865-874):
`do { ret = ret || transfer_block(...); block_count++; }
while ((current_block = current_block->next_block) && ret == 0);`.
`isFirstFlag` tracks `block_count == 0`; `is_last` is whether the block
has no successor.  Because `||` is C's logical OR, a failing block makes
`ret` the truth value `1`, not the block's error code, and the loop
stops at the first failure. -/
def configLoop (cfg : BuildCfg) (channel : Nat) :
    Channel → List BlockCfg → Bool → Int × Channel × List SubmitCall
  | ch, [], _ => (0, ch, [])
  | ch, b :: rest, isFirstFlag =>
    if (transferBlock cfg channel ch (blockAddr channel b) b.block_size
        isFirstFlag rest.isEmpty).1 ≠ 0 then
      (1,
       (transferBlock cfg channel ch (blockAddr channel b) b.block_size
         isFirstFlag rest.isEmpty).2.1,
       [⟨blockAddr channel b, b.block_size, isFirstFlag, rest.isEmpty,
         (transferBlock cfg channel ch (blockAddr channel b) b.block_size
           isFirstFlag rest.isEmpty).1⟩])
    else
      match rest with
      | [] =>
        (0,
         (transferBlock cfg channel ch (blockAddr channel b) b.block_size
           isFirstFlag true).2.1,
         [⟨blockAddr channel b, b.block_size, isFirstFlag, true,
           (transferBlock cfg channel ch (blockAddr channel b) b.block_size
             isFirstFlag true).1⟩])
      | b2 :: rest2 =>
        ((configLoop cfg channel
            (transferBlock cfg channel ch (blockAddr channel b) b.block_size
              isFirstFlag false).2.1 (b2 :: rest2) false).1,
         (configLoop cfg channel
            (transferBlock cfg channel ch (blockAddr channel b) b.block_size
              isFirstFlag false).2.1 (b2 :: rest2) false).2.1,
         ⟨blockAddr channel b, b.block_size, isFirstFlag, false,
           (transferBlock cfg channel ch (blockAddr channel b) b.block_size
             isFirstFlag false).1⟩ ::
           (configLoop cfg channel
              (transferBlock cfg channel ch (blockAddr channel b) b.block_size
                isFirstFlag false).2.1 (b2 :: rest2) false).2.2)

/-- Default `SubmitCall` used with `List.getD`. -/
def dummyCall : SubmitCall := ⟨0, 0, false, false, 0⟩

/-- `configure`: validation (channel range, address-adjustment modes,
direction/channel match), then the ring rebuild, the `CURDESC`
register write (not modelled as state), `check_csum_in_isr := false`,
the linked-channel switch (whose invalid case returns `-EINVAL` after
the ring was already rebuilt), callback registration, and the per-block
submission loop.  Returns the C return value, the channel, and the
recorded submission calls. -/
def dmaConfigure (cfg : BuildCfg) (numChannels channel base : Nat)
    (ch : Channel) (dcfg : DmaCfg) : Int × Channel × List SubmitCall :=
  if channel ≥ numChannels then (-EINVAL, ch, [])
  else if dcfg.headBlock.source_addr_adj = AddrAdj.decrement then (-ENOTSUP, ch, [])
  else if dcfg.headBlock.dest_addr_adj = AddrAdj.decrement then (-ENOTSUP, ch, [])
  else if dcfg.headBlock.source_addr_adj ≠ AddrAdj.increment ∧
      dcfg.headBlock.source_addr_adj ≠ AddrAdj.noChange then (-ENOTSUP, ch, [])
  else if dcfg.headBlock.dest_addr_adj ≠ AddrAdj.increment ∧
      dcfg.headBlock.dest_addr_adj ≠ AddrAdj.noChange then (-ENOTSUP, ch, [])
  else if channel = XILINX_AXI_DMA_TX_CHANNEL_NUM ∧
      dcfg.channel_direction ≠ Direction.memoryToPeripheral then (-ENOTSUP, ch, [])
  else if channel = XILINX_AXI_DMA_RX_CHANNEL_NUM ∧
      dcfg.channel_direction ≠ Direction.peripheralToMemory then (-ENOTSUP, ch, [])
  else
    match applyLinkedChannel channel
        { ringRebuild base ch with check_csum_in_isr := false }
        dcfg.linked_channel with
    | none =>
      (-EINVAL, { ringRebuild base ch with check_csum_in_isr := false }, [])
    | some ch2 =>
      configLoop cfg channel { ch2 with hasCompletionCallback := dcfg.hasCallback }
        (dcfg.headBlock :: dcfg.tailBlocks) true

/-! ### Ring model: hardware step, reachability, invariant -/

/-- The environment (hardware) completing a descriptor: the DMA engine
writes the whole status word of an in-flight descriptor (complete flag
and/or error flags plus transferred length) and, for RX checksum
offload, the `app2` sideband word.  The hardware only touches
descriptors that were handed to it, i.e. slots with a non-zero control
word. -/
def hwWriteBack (ch : Channel) (i statusVal app2Val : Nat) : Channel :=
  { ch with
    descriptors := updateDesc ch.descriptors i
      (fun dd => { dd with status := statusVal, app2 := app2Val }) }

/-- A slot is occupied when its control or status word is non-zero (the
source uses exactly this test to decide that a slot is still in use; a
descriptor is free iff both are zero). -/
def slotOccupied (ch : Channel) (i : Nat) : Prop :=
  (ch.descriptors i).control ≠ 0 ∨ (ch.descriptors i).status ≠ 0

instance (ch : Channel) (i : Nat) : Decidable (slotOccupied ch i) := by
  unfold slotOccupied; infer_instance

/-- The ring is fully drained: every slot's control and status are zero. -/
def ringDrained (ch : Channel) : Prop :=
  ∀ i < ch.num_descriptors,
    (ch.descriptors i).control = 0 ∧ (ch.descriptors i).status = 0

instance (ch : Channel) : Decidable (ringDrained ch) := by
  unfold ringDrained; infer_instance

/-- Circular distance from cursor `c` to slot `i` in a ring of `n`
slots (assumes `c ≤ n`). -/
def offsetFrom (n c i : Nat) : Nat := (i + n - c) % n

/-- The channel state produced by `configure`'s ring rebuild when the
descriptors are still in their zero-initialized state: cursors at
`num - 1` / `0` and every slot free.  `configure` establishes exactly
this before the first submission. -/
def freshlyConfigured (ch : Channel) : Prop :=
  0 < ch.num_descriptors ∧
  ch.populated_desc_index = ch.num_descriptors - 1 ∧
  ch.completion_desc_index = 0 ∧
  ∀ i < ch.num_descriptors,
    (ch.descriptors i).control = 0 ∧ (ch.descriptors i).status = 0

instance (ch : Channel) : Decidable (freshlyConfigured ch) := by
  unfold freshlyConfigured; infer_instance

/-- One step of the channel's lifecycle: a submission (with any
arguments, whether it succeeds or is rejected), a hardware write-back of
an in-flight descriptor, or one full completion sweep. -/
inductive ChanStep (cfg : BuildCfg) : Channel → Channel → Prop where
  | submit (ch : Channel) (channel bufferAddr blockSize : Nat)
      (isFirst isLast : Bool) :
      ChanStep cfg ch (transferBlock cfg channel ch bufferAddr blockSize isFirst isLast).2.1
  | hw (ch : Channel) (i statusVal app2Val : Nat)
      (hi : i < ch.num_descriptors)
      (hctrl : (ch.descriptors i).control ≠ 0)
      (hst : statusVal &&& XILINX_AXI_DMA_SG_DESCRIPTOR_STATUS_NOT_TRANSFERRED_MASK ≠ 0) :
      ChanStep cfg ch (hwWriteBack ch i statusVal app2Val)
  | sweep (ch : Channel) : ChanStep cfg ch (sweepChannel ch)

/-- States reachable from a freshly configured channel by any sequence
of submissions, hardware write-backs and completion sweeps. -/
inductive ChanReachable (cfg : BuildCfg) : Channel → Prop where
  | init (ch : Channel) (h : freshlyConfigured ch) : ChanReachable cfg ch
  | step (ch ch' : Channel) (h : ChanReachable cfg ch) (hs : ChanStep cfg ch ch') :
      ChanReachable cfg ch'

/-- Like `ChanStep`, but submissions are restricted to blocks that write
a non-zero control word (non-zero length, or a start/end-of-frame
flag) — i.e. no zero-length middle blocks. -/
inductive ChanStepNZ (cfg : BuildCfg) : Channel → Channel → Prop where
  | submit (ch : Channel) (channel bufferAddr blockSize : Nat)
      (isFirst isLast : Bool)
      (hnz : blockSize ≠ 0 ∨ isFirst = true ∨ isLast = true) :
      ChanStepNZ cfg ch (transferBlock cfg channel ch bufferAddr blockSize isFirst isLast).2.1
  | hw (ch : Channel) (i statusVal app2Val : Nat)
      (hi : i < ch.num_descriptors)
      (hctrl : (ch.descriptors i).control ≠ 0)
      (hst : statusVal &&& XILINX_AXI_DMA_SG_DESCRIPTOR_STATUS_NOT_TRANSFERRED_MASK ≠ 0) :
      ChanStepNZ cfg ch (hwWriteBack ch i statusVal app2Val)
  | sweep (ch : Channel) : ChanStepNZ cfg ch (sweepChannel ch)

/-- Reachability under the non-zero-control restriction. -/
inductive ChanReachableNZ (cfg : BuildCfg) : Channel → Prop where
  | init (ch : Channel) (h : freshlyConfigured ch) : ChanReachableNZ cfg ch
  | step (ch ch' : Channel) (h : ChanReachableNZ cfg ch) (hs : ChanStepNZ cfg ch ch') :
      ChanReachableNZ cfg ch'

/-- The ring invariant, with explicit in-flight count `k`: both cursors
are in range, `populated_desc_index` sits `k` slots (minus one) past
`completion_desc_index`, and a slot is occupied exactly when its
circular offset from `completion_desc_index` is below `k`. -/
def chanInv (ch : Channel) (k : Nat) : Prop :=
  ch.completion_desc_index < ch.num_descriptors ∧
  ch.populated_desc_index < ch.num_descriptors ∧
  k ≤ ch.num_descriptors ∧
  ch.populated_desc_index =
    (ch.completion_desc_index + k + (ch.num_descriptors - 1)) % ch.num_descriptors ∧
  ∀ i < ch.num_descriptors,
    (slotOccupied ch i ↔ offsetFrom ch.num_descriptors ch.completion_desc_index i < k)

/-- The number of slots the consumer may still reclaim before reaching
one past the producer, computed from the two cursors: the circular
distance from `completion_desc_index` to `populated_desc_index + 1`,
with the ambiguous cursor coincidence (distance 0) read as a full ring. -/
def inflightBound (ch : Channel) : Nat :=
  if (ch.populated_desc_index + 1 +
      (ch.num_descriptors - ch.completion_desc_index)) % ch.num_descriptors = 0 then
    ch.num_descriptors
  else
    (ch.populated_desc_index + 1 +
      (ch.num_descriptors - ch.completion_desc_index)) % ch.num_descriptors

/-! ### Event bookkeeping helpers (for the at-most-once claim) -/

/-- Recognize a callback event for descriptor slot `i`. -/
def isCbFor (i : Nat) : SweepEv → Bool
  | SweepEv.callback j _ _ => j == i
  | SweepEv.clear _ => false

/-- Recognize a clear event for descriptor slot `i`. -/
def isClearFor (i : Nat) : SweepEv → Bool
  | SweepEv.callback _ _ _ => false
  | SweepEv.clear j => j == i

/-- The canonical event shape of a sweep with a registered callback:
for each processed slot, one callback event immediately followed by that
slot's clear event. -/
def sweepTrace (chan : Nat) : List (Nat × Int) → List SweepEv
  | [] => []
  | p :: rest => SweepEv.callback p.1 chan p.2 :: SweepEv.clear p.1 :: sweepTrace chan rest

/-! ### Concrete states used by witnesses and counterexamples -/

/-- A build configuration with the cache-maintenance option disabled. -/
def buildCfgNoCache : BuildCfg := ⟨false, 64⟩

/-- A freshly configured channel with `n` descriptor slots (the state
`configure` leaves a never-used channel in: cursors at `n - 1` / `0`,
all slots free). -/
def freshChan (n : Nat) : Channel :=
  { zeroChannel with
    num_descriptors := n
    populated_desc_index := n - 1 }

/-- Counterexample trace for the ring-invariant claim, step 1: a
zero-length submission with no frame flags (a legal middle block of a
chain) writes control word `0`, so the slot stays "free" while the
producer cursor advances. -/
def c1CexS1 : Channel := (transferBlock buildCfgNoCache 0 (freshChan 2) 0 0 false false).2.1

/-- Step 2: a normal 5-byte submission into slot 1. -/
def c1CexS2 : Channel := (transferBlock buildCfgNoCache 0 c1CexS1 100 5 false false).2.1

/-- Step 3: a 7-byte submission — the busy probe sees slot 0 still free
(its control word is 0 from the zero-length block), so the producer laps
the consumer. -/
def c1CexS3 : Channel := (transferBlock buildCfgNoCache 0 c1CexS2 200 7 false false).2.1

/-- Step 4: hardware completes slot 0. -/
def c1CexS4 : Channel := hwWriteBack c1CexS3 0 0x80000007 0

/-- Step 5: hardware completes slot 1. -/
def c1CexS5 : Channel := hwWriteBack c1CexS4 1 0x80000005 0

/-- A 2-slot channel whose slot 0 (the next slot to be probed) is still
in use: its control word is non-zero. -/
def c2Chan : Channel :=
  { freshChan 2 with
    descriptors := updateDesc (freshChan 2).descriptors 0
      (fun d => { d with control := 5 }) }

/-- A concrete successful `init` run: two channels, the reset bit reads
back clear immediately. -/
def c4Init : Int × DeviceState × Bool :=
  dmaInit 2 16 16 0x40000000 (fun _ => 0) ⟨zeroChannel, zeroChannel⟩

/-- A previously used 2-slot ring: slot 0 holds a stale submitted and
completed descriptor (non-zero control and status). -/
def c5Used : Channel :=
  { freshChan 2 with
    descriptors := updateDesc (freshChan 2).descriptors 0
      (fun d => { d with control := 5, status := 0x80000000 }) }

/-- A fully valid single-block `dma_config` for the TX channel, without
checksum offload. -/
def c5Cfg : DmaCfg :=
  { headBlock :=
      { source_address := 100
        dest_address := 200
        block_size := 64
        source_addr_adj := AddrAdj.increment
        dest_addr_adj := AddrAdj.increment }
    tailBlocks := []
    channel_direction := Direction.memoryToPeripheral
    linked_channel := XILINX_AXI_DMA_LINKED_CHANNEL_NO_CSUM_OFFLOAD
    hasCallback := true }

/-- `configure` run on the previously used ring with a valid config. -/
def c5Run : Int × Channel × List SubmitCall :=
  dmaConfigure buildCfgNoCache 2 0 4096 c5Used c5Cfg

/-- A 1-slot RX channel with checksum inspection enabled whose
descriptor was completed by hardware with APP2 = 0x38 (all TCP-error
mask bits). -/
def c7Chan38 : Channel :=
  { zeroChannel with
    num_descriptors := 1
    direction := Direction.peripheralToMemory
    hasCompletionCallback := true
    check_csum_in_isr := true
    descriptors := fun _ =>
      { zeroDescriptor with status := 0x80000000, app2 := 0x00000038 } }

/-- What the per-block submission loop guarantees for a non-empty block
chain: at least one and at most `blocks.length` submissions are made;
submission `j` carries `is_first` exactly for the first block (when the
loop was entered with the first-block flag) and `is_last` exactly for
the chain's final block; the C return value is the logical-OR truth
value 0 or 1 (never the failing block's error code); on 0 every block
was submitted and every submission succeeded; on 1 the final recorded
submission is the first failure and every earlier one succeeded (the
chain is aborted there). -/
def ConfigLoopSpec (blocks : List BlockCfg) (flag : Bool)
    (r : Int × Channel × List SubmitCall) : Prop :=
  1 ≤ r.2.2.length ∧
  r.2.2.length ≤ blocks.length ∧
  (∀ j < r.2.2.length,
    (r.2.2.getD j dummyCall).isFirst = (decide (j = 0) && flag) ∧
    (r.2.2.getD j dummyCall).isLast = decide (j + 1 = blocks.length)) ∧
  (r.1 = 0 ∨ r.1 = 1) ∧
  (r.1 = 0 → r.2.2.length = blocks.length ∧
    ∀ j < r.2.2.length, (r.2.2.getD j dummyCall).result = 0) ∧
  (r.1 = 1 → (r.2.2.getD (r.2.2.length - 1) dummyCall).result ≠ 0 ∧
    ∀ j, j + 1 < r.2.2.length → (r.2.2.getD j dummyCall).result = 0)

/-- `configure` run for the return-value counterexample: a valid config
whose first submission is BUSY-rejected (slot 0 of the ring still in
use). -/
def c8Run : Int × Channel × List SubmitCall :=
  dmaConfigure buildCfgNoCache 2 0 4096 c2Chan c5Cfg

/-! ### Helper lemmas: wrap-around arithmetic -/

theorem wrapIdx_lt (n i : Nat) (hn : 0 < n) : wrapIdx n i < n := by
  unfold wrapIdx
  split <;> omega

theorem wrapIdx_eq_mod (n i : Nat) (h : i ≤ n) : wrapIdx n i = i % n := by
  unfold wrapIdx
  rcases Nat.lt_or_ge i n with hlt | hge
  · rw [if_neg (by omega), Nat.mod_eq_of_lt hlt]
  · have hin : i = n := by omega
    rw [if_pos hge, hin, Nat.mod_self]

theorem offsetFrom_spec (n c i : Nat) (hc : c < n) (hi : i < n) :
    offsetFrom n c i = if c ≤ i then i - c else i + n - c := by
  unfold offsetFrom
  rcases le_or_lt c i with h | h
  · rw [if_pos h]
    have h1 : i + n - c = (i - c) + n := by omega
    rw [h1, Nat.add_mod_right, Nat.mod_eq_of_lt (by omega)]
  · rw [if_neg (by omega), Nat.mod_eq_of_lt (by omega)]

theorem offsetFrom_lt (n c i : Nat) (hn : 0 < n) : offsetFrom n c i < n :=
  Nat.mod_lt _ hn

theorem offsetFrom_self (n c : Nat) (hc : c < n) : offsetFrom n c c = 0 := by
  rw [offsetFrom_spec n c c hc hc, if_pos (Nat.le_refl c), Nat.sub_self]

theorem offsetFrom_eq_zero_iff (n c i : Nat) (hc : c < n) (hi : i < n) :
    offsetFrom n c i = 0 ↔ i = c := by
  rw [offsetFrom_spec n c i hc hi]
  split <;> omega

theorem offsetFrom_inj (n c i j : Nat) (hc : c < n) (hi : i < n) (hj : j < n)
    (h : offsetFrom n c i = offsetFrom n c j) : i = j := by
  rw [offsetFrom_spec n c i hc hi, offsetFrom_spec n c j hc hj] at h
  split_ifs at h <;> omega

theorem offsetFrom_add (n c j : Nat) (hc : c < n) (hj : j < n) :
    offsetFrom n c ((c + j) % n) = j := by
  rcases Nat.lt_or_ge (c + j) n with h | h
  · rw [Nat.mod_eq_of_lt h, offsetFrom_spec n c (c + j) hc h,
      if_pos (Nat.le_add_right c j)]
    omega
  · have h2 : (c + j) % n = c + j - n := by
      rw [Nat.mod_eq_sub_mod h, Nat.mod_eq_of_lt (by omega)]
    rw [h2, offsetFrom_spec n c (c + j - n) hc (by omega), if_neg (by omega)]
    omega

theorem add_offsetFrom (n c i : Nat) (hc : c < n) (hi : i < n) :
    (c + offsetFrom n c i) % n = i := by
  rw [offsetFrom_spec n c i hc hi]
  split
  · rw [Nat.mod_eq_of_lt (by omega)]
    omega
  · have h1 : c + (i + n - c) = i + n := by omega
    rw [h1, Nat.add_mod_right, Nat.mod_eq_of_lt hi]

theorem offsetFrom_shift (n c i : Nat) (hc : c < n) (hi : i < n) (hne : i ≠ c) :
    offsetFrom n (wrapIdx n (c + 1)) i + 1 = offsetFrom n c i := by
  unfold wrapIdx
  rcases Nat.lt_or_ge (c + 1) n with hlt | hge
  · rw [if_neg (by omega), offsetFrom_spec n (c + 1) i hlt hi,
      offsetFrom_spec n c i hc hi]
    split_ifs <;> omega
  · have hcn : c + 1 = n := by omega
    rw [if_pos hge, offsetFrom_spec n 0 i (by omega) hi,
      offsetFrom_spec n c i hc hi]
    split_ifs <;> omega

theorem offsetFrom_wrap_self (n c : Nat) (hc : c < n) :
    offsetFrom n (wrapIdx n (c + 1)) c = n - 1 := by
  unfold wrapIdx
  rcases Nat.lt_or_ge (c + 1) n with hlt | hge
  · rw [if_neg (by omega), offsetFrom_spec n (c + 1) c hlt hc, if_neg (by omega)]
    omega
  · have hcn : c + 1 = n := by omega
    rw [if_pos hge, offsetFrom_spec n 0 c (by omega) hc, if_pos (Nat.zero_le c)]
    omega

theorem lor_ne_zero_left (x y : Nat) (h : x ≠ 0) : x ||| y ≠ 0 := by
  intro h0
  obtain ⟨i, hi⟩ := Nat.exists_most_significant_bit h
  have ht := Nat.testBit_lor x y i
  rw [h0] at ht
  simp [Nat.zero_testBit] at ht
  exact absurd ht.1 (by simp [hi.1])

theorem lor_ne_zero_right (x y : Nat) (h : y ≠ 0) : x ||| y ≠ 0 := by
  rw [Nat.lor_comm]
  exact lor_ne_zero_left y x h

/-- The control word written by a submission is non-zero whenever the
block has a non-zero length or a start/end-of-frame flag. -/
theorem ctrlWord_ne_zero (bs : Nat) (f l : Bool)
    (h : bs ≠ 0 ∨ f = true ∨ l = true) : ctrlWord bs f l ≠ 0 := by
  unfold ctrlWord
  rcases h with hbs | hf | hl
  · cases f <;> cases l <;> simp only [Bool.false_eq_true, if_true, if_false]
    · exact hbs
    · exact lor_ne_zero_left _ _ hbs
    · exact lor_ne_zero_left _ _ hbs
    · exact lor_ne_zero_left _ _ (lor_ne_zero_left _ _ hbs)
  · subst hf
    cases l <;> simp only [Bool.false_eq_true, if_true, if_false]
    · exact lor_ne_zero_right _ _ (by decide)
    · exact lor_ne_zero_left _ _ (lor_ne_zero_right _ _ (by decide))
  · subst hl
    simp only [if_true]
    exact lor_ne_zero_right _ _ (by decide)

/-! ### Helper lemmas: the completion sweep -/

theorem cleanUp_zero (ch : Channel) : cleanUpSgDescriptors ch 0 = (ch, 0, []) := rfl

theorem cleanUp_succ (ch : Channel) (fuel : Nat) :
    cleanUpSgDescriptors ch (fuel + 1) =
      if sweepGuard ch then
        ((cleanUpSgDescriptors (sweepStepChannel ch) fuel).1,
         (cleanUpSgDescriptors (sweepStepChannel ch) fuel).2.1 + 1,
         sweepStepEvents ch ++ (cleanUpSgDescriptors (sweepStepChannel ch) fuel).2.2)
      else (ch, 0, []) := rfl

theorem sweepStepChannel_fields (ch : Channel) :
    (sweepStepChannel ch).num_descriptors = ch.num_descriptors ∧
    (sweepStepChannel ch).populated_desc_index = ch.populated_desc_index ∧
    (sweepStepChannel ch).hasCompletionCallback = ch.hasCompletionCallback ∧
    (sweepStepChannel ch).direction = ch.direction ∧
    (sweepStepChannel ch).check_csum_in_isr = ch.check_csum_in_isr ∧
    (sweepStepChannel ch).completion_desc_index =
      wrapIdx ch.num_descriptors (ch.completion_desc_index + 1) :=
  ⟨rfl, rfl, rfl, rfl, rfl, rfl⟩

theorem cleanUp_static (fuel : Nat) (ch : Channel) :
    (cleanUpSgDescriptors ch fuel).1.num_descriptors = ch.num_descriptors ∧
    (cleanUpSgDescriptors ch fuel).1.populated_desc_index = ch.populated_desc_index ∧
    (cleanUpSgDescriptors ch fuel).1.hasCompletionCallback = ch.hasCompletionCallback ∧
    (cleanUpSgDescriptors ch fuel).1.direction = ch.direction ∧
    (cleanUpSgDescriptors ch fuel).1.check_csum_in_isr = ch.check_csum_in_isr := by
  induction fuel generalizing ch with
  | zero => exact ⟨rfl, rfl, rfl, rfl, rfl⟩
  | succ fuel ih =>
    by_cases hg : sweepGuard ch
    · rw [cleanUp_succ, if_pos hg]
      exact ih (sweepStepChannel ch)
    · rw [cleanUp_succ, if_neg hg]
      exact ⟨rfl, rfl, rfl, rfl, rfl⟩

theorem cleanUp_pos_proj (ch : Channel) (fuel : Nat) (hg : sweepGuard ch) :
    (cleanUpSgDescriptors ch (fuel + 1)).1 =
      (cleanUpSgDescriptors (sweepStepChannel ch) fuel).1 ∧
    (cleanUpSgDescriptors ch (fuel + 1)).2.1 =
      (cleanUpSgDescriptors (sweepStepChannel ch) fuel).2.1 + 1 ∧
    (cleanUpSgDescriptors ch (fuel + 1)).2.2 =
      sweepStepEvents ch ++ (cleanUpSgDescriptors (sweepStepChannel ch) fuel).2.2 := by
  rw [cleanUp_succ, if_pos hg]
  exact ⟨rfl, rfl, rfl⟩

theorem cleanUp_neg_proj (ch : Channel) (fuel : Nat) (hg : ¬ sweepGuard ch) :
    (cleanUpSgDescriptors ch (fuel + 1)).1 = ch ∧
    (cleanUpSgDescriptors ch (fuel + 1)).2.1 = 0 ∧
    (cleanUpSgDescriptors ch (fuel + 1)).2.2 = [] := by
  rw [cleanUp_succ, if_neg hg]
  exact ⟨rfl, rfl, rfl⟩

theorem sweepStepChannel_num (ch : Channel) :
    (sweepStepChannel ch).num_descriptors = ch.num_descriptors := rfl

theorem sweepStepChannel_descs (ch : Channel) (i : Nat) :
    (sweepStepChannel ch).descriptors i =
      if i = ch.completion_desc_index then
        { ch.descriptors i with control := 0, status := 0 }
      else ch.descriptors i := by
  simp only [sweepStepChannel, updateDesc]

/-- Descriptor-level effect of a sweep: the final completion cursor is
the start cursor advanced by the number of processed slots; every
processed slot has its control and status cleared and its other fields
untouched; every untouched slot is unchanged. -/
theorem cleanUp_descs (fuel : Nat) (ch : Channel)
    (hn : 0 < ch.num_descriptors)
    (hc : ch.completion_desc_index < ch.num_descriptors) :
    (cleanUpSgDescriptors ch fuel).1.completion_desc_index =
      (ch.completion_desc_index + (cleanUpSgDescriptors ch fuel).2.1) %
        ch.num_descriptors ∧
    (∀ j < (cleanUpSgDescriptors ch fuel).2.1,
      (cleanUpSgDescriptors ch fuel).1.descriptors
          ((ch.completion_desc_index + j) % ch.num_descriptors) =
        { ch.descriptors ((ch.completion_desc_index + j) % ch.num_descriptors) with
            control := 0, status := 0 }) ∧
    (∀ i, (∀ j < (cleanUpSgDescriptors ch fuel).2.1,
        i ≠ (ch.completion_desc_index + j) % ch.num_descriptors) →
      (cleanUpSgDescriptors ch fuel).1.descriptors i = ch.descriptors i) := by
  induction fuel generalizing ch with
  | zero =>
    refine ⟨?_, ?_, ?_⟩
    · simp only [cleanUp_zero]
      rw [Nat.add_zero, Nat.mod_eq_of_lt hc]
    · intro j hj
      simp only [cleanUp_zero] at hj
      omega
    · intro i _
      rfl
  | succ fuel ih =>
    by_cases hg : sweepGuard ch
    · obtain ⟨e1, e2, _⟩ := cleanUp_pos_proj ch fuel hg
      have hn2 : 0 < (sweepStepChannel ch).num_descriptors := hn
      have hc2 : (sweepStepChannel ch).completion_desc_index <
          (sweepStepChannel ch).num_descriptors := wrapIdx_lt _ _ hn
      obtain ⟨ih1, ih2, ih3⟩ := ih (sweepStepChannel ch) hn2 hc2
      have hwrap : (sweepStepChannel ch).completion_desc_index =
          (ch.completion_desc_index + 1) % ch.num_descriptors :=
        wrapIdx_eq_mod _ _ (by omega)
      simp only [sweepStepChannel_num, hwrap] at ih1 ih2 ih3
      have hshift : ∀ j : Nat,
          ((ch.completion_desc_index + 1) % ch.num_descriptors + j) %
            ch.num_descriptors =
          (ch.completion_desc_index + (j + 1)) % ch.num_descriptors := by
        intro j
        rw [Nat.mod_add_mod]
        congr 1
        omega
      simp only [hshift] at ih1 ih2 ih3
      refine ⟨?_, ?_, ?_⟩
      · simp only [e1, e2, ih1]
      · intro j hj
        simp only [e2] at hj
        simp only [e1]
        rcases Nat.eq_zero_or_pos j with hj0 | hjpos
        · subst hj0
          have hslot : (ch.completion_desc_index + 0) % ch.num_descriptors =
              ch.completion_desc_index := by
            rw [Nat.add_zero, Nat.mod_eq_of_lt hc]
          rw [hslot]
          by_cases hmem : ∃ j' < (cleanUpSgDescriptors (sweepStepChannel ch) fuel).2.1,
            ch.completion_desc_index =
              (ch.completion_desc_index + (j' + 1)) % ch.num_descriptors
          · obtain ⟨j', hj', heq⟩ := hmem
            have h2 := ih2 j' hj'
            rw [← heq] at h2
            rw [h2, sweepStepChannel_descs, if_pos rfl]
          · push_neg at hmem
            have h3 := ih3 ch.completion_desc_index (fun j' hj' => hmem j' hj')
            rw [h3, sweepStepChannel_descs, if_pos rfl]
        · obtain ⟨j', rfl⟩ : ∃ j', j = j' + 1 := ⟨j - 1, by omega⟩
          have hj' : j' < (cleanUpSgDescriptors (sweepStepChannel ch) fuel).2.1 := by
            omega
          have h2 := ih2 j' hj'
          rw [h2, sweepStepChannel_descs]
          split
          · rfl
          · rfl
      · intro i hi
        simp only [e2] at hi
        simp only [e1]
        have hi0 : i ≠ ch.completion_desc_index := by
          have h0 := hi 0 (by omega)
          rw [Nat.add_zero, Nat.mod_eq_of_lt hc] at h0
          exact h0
        have h3 := ih3 i (fun j' hj' => hi (j' + 1) (by omega))
        rw [h3, sweepStepChannel_descs, if_neg hi0]
    · obtain ⟨e1, e2, _⟩ := cleanUp_neg_proj ch fuel hg
      refine ⟨?_, ?_, ?_⟩
      · simp only [e1, e2]
        rw [Nat.add_zero, Nat.mod_eq_of_lt hc]
      · intro j hj
        simp only [e2] at hj
        omega
      · intro i _
        simp only [e1]

/-- Wall lemma: if the slot `d` positions ahead of the completion cursor
has no status bit outside the transferred-length field, the sweep
processes at most `d` descriptors (it clears every slot it passes and
never sets a status bit, so it must stop at or before the wall). -/
theorem sweep_wall (d : Nat) : ∀ (ch : Channel) (fuel : Nat),
    0 < ch.num_descriptors →
    ch.completion_desc_index < ch.num_descriptors →
    (ch.descriptors ((ch.completion_desc_index + d) % ch.num_descriptors)).status &&&
        XILINX_AXI_DMA_SG_DESCRIPTOR_STATUS_NOT_TRANSFERRED_MASK = 0 →
    (cleanUpSgDescriptors ch fuel).2.1 ≤ d := by
  induction d with
  | zero =>
    intro ch fuel hn hc hw
    rw [Nat.add_zero, Nat.mod_eq_of_lt hc] at hw
    cases fuel with
    | zero =>
      simp only [cleanUp_zero]
      exact Nat.zero_le _
    | succ fuel =>
      have hg : ¬ sweepGuard ch := by
        unfold sweepGuard
        rw [hw]
        simp
      obtain ⟨_, e2, _⟩ := cleanUp_neg_proj ch fuel hg
      rw [e2]
  | succ d ihd =>
    intro ch fuel hn hc hw
    cases fuel with
    | zero =>
      simp only [cleanUp_zero]
      exact Nat.zero_le _
    | succ fuel =>
      by_cases hg : sweepGuard ch
      · obtain ⟨_, e2, _⟩ := cleanUp_pos_proj ch fuel hg
        have hn2 : 0 < (sweepStepChannel ch).num_descriptors := hn
        have hc2 : (sweepStepChannel ch).completion_desc_index <
            (sweepStepChannel ch).num_descriptors := wrapIdx_lt _ _ hn
        have hwrap : (sweepStepChannel ch).completion_desc_index =
            (ch.completion_desc_index + 1) % ch.num_descriptors :=
          wrapIdx_eq_mod _ _ (by omega)
        have hslot : ((sweepStepChannel ch).completion_desc_index + d) %
            (sweepStepChannel ch).num_descriptors =
            (ch.completion_desc_index + (d + 1)) % ch.num_descriptors := by
          rw [sweepStepChannel_num, hwrap, Nat.mod_add_mod]
          congr 1
          omega
        have hw2 : ((sweepStepChannel ch).descriptors
            (((sweepStepChannel ch).completion_desc_index + d) %
              (sweepStepChannel ch).num_descriptors)).status &&&
            XILINX_AXI_DMA_SG_DESCRIPTOR_STATUS_NOT_TRANSFERRED_MASK = 0 := by
          rw [hslot, sweepStepChannel_descs]
          split
          · simp
          · exact hw
        have hb := ihd (sweepStepChannel ch) fuel hn2 hc2 hw2
        rw [e2]
        omega
      · obtain ⟨_, e2, _⟩ := cleanUp_neg_proj ch fuel hg
        rw [e2]
        exact Nat.zero_le _

/-- The sweep never processes more than `num_descriptors` slots from any
state with an in-range completion cursor: after the first processed slot
is cleared, it acts as a wall one full lap ahead. -/
theorem sweep_steps_le_num (ch : Channel) (fuel : Nat)
    (hn : 0 < ch.num_descriptors)
    (hc : ch.completion_desc_index < ch.num_descriptors) :
    (cleanUpSgDescriptors ch fuel).2.1 ≤ ch.num_descriptors := by
  cases fuel with
  | zero =>
    simp only [cleanUp_zero]
    exact Nat.zero_le _
  | succ fuel =>
    by_cases hg : sweepGuard ch
    · obtain ⟨_, e2, _⟩ := cleanUp_pos_proj ch fuel hg
      have hn2 : 0 < (sweepStepChannel ch).num_descriptors := hn
      have hc2 : (sweepStepChannel ch).completion_desc_index <
          (sweepStepChannel ch).num_descriptors := wrapIdx_lt _ _ hn
      have hwrap : (sweepStepChannel ch).completion_desc_index =
          (ch.completion_desc_index + 1) % ch.num_descriptors :=
        wrapIdx_eq_mod _ _ (by omega)
      have hslot : ((sweepStepChannel ch).completion_desc_index +
          (ch.num_descriptors - 1)) % (sweepStepChannel ch).num_descriptors =
          ch.completion_desc_index := by
        rw [sweepStepChannel_num, hwrap, Nat.mod_add_mod]
        have harith : ch.completion_desc_index + 1 + (ch.num_descriptors - 1) =
            ch.completion_desc_index + ch.num_descriptors := by omega
        rw [harith, Nat.add_mod_right, Nat.mod_eq_of_lt hc]
      have hw2 : ((sweepStepChannel ch).descriptors
          (((sweepStepChannel ch).completion_desc_index +
            (ch.num_descriptors - 1)) % (sweepStepChannel ch).num_descriptors)).status &&&
          XILINX_AXI_DMA_SG_DESCRIPTOR_STATUS_NOT_TRANSFERRED_MASK = 0 := by
        rw [hslot, sweepStepChannel_descs, if_pos rfl]
        simp
      have hb := sweep_wall (ch.num_descriptors - 1) (sweepStepChannel ch) fuel hn2 hc2 hw2
      rw [e2]
      omega
    · obtain ⟨_, e2, _⟩ := cleanUp_neg_proj ch fuel hg
      rw [e2]
      exact Nat.zero_le _

/-! ### Helper lemmas: submission and the ring invariant -/

/-- The three possible state outcomes of `transfer_block`: unchanged
(busy or RX-alignment rejection), buffer-address/`app0` written but
rejected for size, or the full success path (which requires the probed
slot to have been free). -/
theorem transferBlock_cases (cfg : BuildCfg) (channel : Nat) (ch : Channel)
    (bufferAddr blockSize : Nat) (isFirst isLast : Bool) :
    (transferBlock cfg channel ch bufferAddr blockSize isFirst isLast).2.1 = ch ∨
    (transferBlock cfg channel ch bufferAddr blockSize isFirst isLast).2.1 =
      { ch with
        descriptors := updateDesc ch.descriptors (nextDescIndex ch)
          (fun dd => { dd with buffer_address := bufferAddr, app0 := ch.sg_desc_app0 }) } ∨
    ((ch.descriptors (nextDescIndex ch)).control = 0 ∧
     (ch.descriptors (nextDescIndex ch)).status = 0 ∧
     (transferBlock cfg channel ch bufferAddr blockSize isFirst isLast).2.1 =
      { ch with
        descriptors := updateDesc
          (updateDesc ch.descriptors (nextDescIndex ch)
            (fun dd => { dd with buffer_address := bufferAddr, app0 := ch.sg_desc_app0 }))
          (nextDescIndex ch)
          (fun dd => { dd with control := ctrlWord blockSize isFirst isLast })
        populated_desc_index := nextDescIndex ch }) := by
  unfold transferBlock
  split_ifs with h1 h2 h3
  · exact Or.inl rfl
  · exact Or.inl rfl
  · exact Or.inr (Or.inl rfl)
  · push_neg at h1
    exact Or.inr (Or.inr ⟨h1.1, h1.2, rfl⟩)

theorem updateDesc_other (descs : Nat → Descriptor) (idx : Nat)
    (f : Descriptor → Descriptor) (i : Nat) (h : i ≠ idx) :
    updateDesc descs idx f i = descs i := by
  unfold updateDesc
  rw [if_neg h]

theorem slotOccupied_congr (ch ch' : Channel) (i : Nat)
    (hctrl : (ch'.descriptors i).control = (ch.descriptors i).control)
    (hst : (ch'.descriptors i).status = (ch.descriptors i).status) :
    (slotOccupied ch' i ↔ slotOccupied ch i) := by
  unfold slotOccupied
  rw [hctrl, hst]

theorem chanInv_of_fresh (ch : Channel) (h : freshlyConfigured ch) :
    chanInv ch 0 := by
  obtain ⟨hn, hp, hc, hfree⟩ := h
  refine ⟨by omega, by omega, Nat.zero_le _, ?_, ?_⟩
  · rw [hc, hp]
    have h0 : 0 + 0 + (ch.num_descriptors - 1) = ch.num_descriptors - 1 := by omega
    rw [h0, Nat.mod_eq_of_lt (by omega)]
  · intro i hi
    constructor
    · intro hocc
      obtain ⟨h1, h2⟩ := hfree i hi
      unfold slotOccupied at hocc
      rcases hocc with h | h
      · exact absurd h1 h
      · exact absurd h2 h
    · intro h
      omega

/-- A hardware write-back of an in-flight descriptor preserves the ring
invariant with the same in-flight count. -/
theorem chanInv_hw (ch : Channel) (i statusVal app2Val k : Nat)
    (hk : chanInv ch k)
    (hctrl : (ch.descriptors i).control ≠ 0) :
    chanInv (hwWriteBack ch i statusVal app2Val) k := by
  obtain ⟨hcn, hpn, hkn, hpf, hocc⟩ := hk
  refine ⟨hcn, hpn, hkn, hpf, ?_⟩
  intro j hj
  have horig := hocc j hj
  by_cases hji : j = i
  · subst hji
    have hocc_new : slotOccupied (hwWriteBack ch j statusVal app2Val) j := by
      unfold slotOccupied hwWriteBack updateDesc
      simp only [if_pos rfl]
      exact Or.inl hctrl
    have hocc_old : slotOccupied ch j := Or.inl hctrl
    constructor
    · intro _
      exact horig.mp hocc_old
    · intro _
      exact hocc_new
  · have hsame : (hwWriteBack ch i statusVal app2Val).descriptors j = ch.descriptors j := by
      unfold hwWriteBack updateDesc
      simp only [if_neg hji]
    rw [slotOccupied_congr ch (hwWriteBack ch i statusVal app2Val) j
      (by rw [hsame]) (by rw [hsame])]
    exact horig

/-- A submission that can only write a non-zero control word preserves
the ring invariant (with the count unchanged on the rejection paths and
incremented on success). -/
theorem chanInv_submit (cfg : BuildCfg) (channel : Nat) (ch : Channel)
    (bufferAddr blockSize : Nat) (isFirst isLast : Bool) (k : Nat)
    (hk : chanInv ch k)
    (hnz : blockSize ≠ 0 ∨ isFirst = true ∨ isLast = true) :
    ∃ k', chanInv (transferBlock cfg channel ch bufferAddr blockSize isFirst isLast).2.1 k' := by
  obtain ⟨hcn, hpn, hkn, hpf, hocc⟩ := hk
  have hnn : 0 < ch.num_descriptors := by omega
  rcases transferBlock_cases cfg channel ch bufferAddr blockSize isFirst isLast with
    hch | hch | ⟨hc0, hs0, hch⟩
  · refine ⟨k, ?_⟩
    rw [hch]
    exact ⟨hcn, hpn, hkn, hpf, hocc⟩
  · refine ⟨k, ?_⟩
    rw [hch]
    refine ⟨hcn, hpn, hkn, hpf, ?_⟩
    intro i hi
    have hctrl : (updateDesc ch.descriptors (nextDescIndex ch)
        (fun dd => { dd with buffer_address := bufferAddr, app0 := ch.sg_desc_app0 }) i).control =
        (ch.descriptors i).control := by
      unfold updateDesc
      split <;> rfl
    have hst : (updateDesc ch.descriptors (nextDescIndex ch)
        (fun dd => { dd with buffer_address := bufferAddr, app0 := ch.sg_desc_app0 }) i).status =
        (ch.descriptors i).status := by
      unfold updateDesc
      split <;> rfl
    unfold slotOccupied
    rw [hctrl, hst]
    exact hocc i hi
  · have hnext_lt : nextDescIndex ch < ch.num_descriptors := wrapIdx_lt _ _ hnn
    have hnext_mod : nextDescIndex ch = (ch.populated_desc_index + 1) % ch.num_descriptors :=
      wrapIdx_eq_mod _ _ (by omega)
    have hnext_ck : nextDescIndex ch =
        (ch.completion_desc_index + k) % ch.num_descriptors := by
      rw [hnext_mod, hpf, Nat.mod_add_mod]
      have harith : ch.completion_desc_index + k + (ch.num_descriptors - 1) + 1 =
          ch.completion_desc_index + k + ch.num_descriptors := by omega
      rw [harith, Nat.add_mod_right]
    have hkltn : k < ch.num_descriptors := by
      by_contra hge
      have hkeq : k = ch.num_descriptors := by omega
      have hnc : nextDescIndex ch = ch.completion_desc_index := by
        rw [hnext_ck, hkeq, Nat.add_mod_right, Nat.mod_eq_of_lt hcn]
      have hoc := (hocc (nextDescIndex ch) hnext_lt).mpr
        (by rw [hnc, offsetFrom_self _ _ hcn]; omega)
      unfold slotOccupied at hoc
      rcases hoc with h | h
      · exact h hc0
      · exact h hs0
    have hoffnext : offsetFrom ch.num_descriptors ch.completion_desc_index
        (nextDescIndex ch) = k := by
      rw [hnext_ck]
      exact offsetFrom_add _ _ _ hcn hkltn
    refine ⟨k + 1, ?_⟩
    rw [hch]
    unfold chanInv
    dsimp only
    refine ⟨hcn, hnext_lt, by omega, ?_, ?_⟩
    · rw [hnext_ck]
      have harith : ch.completion_desc_index + (k + 1) + (ch.num_descriptors - 1) =
          ch.completion_desc_index + k + ch.num_descriptors := by omega
      rw [harith]
      conv_lhs => rw [← Nat.add_mod_right (ch.completion_desc_index + k) ch.num_descriptors]
    · intro i hi
      unfold slotOccupied
      dsimp only
      by_cases hin : i = nextDescIndex ch
      · subst hin
        have hctrl_new : ((updateDesc
            (updateDesc ch.descriptors (nextDescIndex ch)
              (fun dd => { dd with buffer_address := bufferAddr, app0 := ch.sg_desc_app0 }))
            (nextDescIndex ch)
            (fun dd => { dd with control := ctrlWord blockSize isFirst isLast }))
              (nextDescIndex ch)).control = ctrlWord blockSize isFirst isLast := by
          simp [updateDesc]
        constructor
        · intro _
          rw [hoffnext]
          omega
        · intro _
          rw [hctrl_new]
          exact Or.inl (ctrlWord_ne_zero _ _ _ hnz)
      · have hsame : (updateDesc
            (updateDesc ch.descriptors (nextDescIndex ch)
              (fun dd => { dd with buffer_address := bufferAddr, app0 := ch.sg_desc_app0 }))
            (nextDescIndex ch)
            (fun dd => { dd with control := ctrlWord blockSize isFirst isLast })) i =
            ch.descriptors i := by
          unfold updateDesc
          simp only [if_neg hin]
        have hoffne : offsetFrom ch.num_descriptors ch.completion_desc_index i ≠ k := by
          intro he
          exact hin (offsetFrom_inj _ _ _ _ hcn hi hnext_lt (he.trans hoffnext.symm))
        rw [hsame]
        have horig := hocc i hi
        unfold slotOccupied at horig
        rw [horig]
        omega

/-- One sweep-loop iteration preserves the ring invariant, decrementing
the in-flight count. -/
theorem chanInv_sweepStep (ch : Channel) (k : Nat)
    (hk : chanInv ch k) (hg : sweepGuard ch) :
    1 ≤ k ∧ chanInv (sweepStepChannel ch) (k - 1) := by
  obtain ⟨hcn, hpn, hkn, hpf, hocc⟩ := hk
  have hnn : 0 < ch.num_descriptors := by omega
  have hst_ne : (ch.descriptors ch.completion_desc_index).status ≠ 0 := by
    intro h0
    unfold sweepGuard at hg
    rw [h0] at hg
    simp at hg
  have hocc_c : slotOccupied ch ch.completion_desc_index := Or.inr hst_ne
  have hk1 : 1 ≤ k := by
    have := (hocc ch.completion_desc_index hcn).mp hocc_c
    rw [offsetFrom_self _ _ hcn] at this
    omega
  refine ⟨hk1, ?_⟩
  have hc2 : (sweepStepChannel ch).completion_desc_index <
      (sweepStepChannel ch).num_descriptors := wrapIdx_lt _ _ hnn
  refine ⟨hc2, hpn, by rw [sweepStepChannel_num]; omega, ?_, ?_⟩
  · show ch.populated_desc_index =
      (wrapIdx ch.num_descriptors (ch.completion_desc_index + 1) + (k - 1) +
        (ch.num_descriptors - 1)) % ch.num_descriptors
    rw [wrapIdx_eq_mod _ _ (by omega), Nat.add_assoc, Nat.mod_add_mod]
    have harith : ch.completion_desc_index + 1 + ((k - 1) + (ch.num_descriptors - 1)) =
        ch.completion_desc_index + k + (ch.num_descriptors - 1) := by omega
    rw [harith]
    exact hpf
  · intro i hi
    have hi' : i < ch.num_descriptors := hi
    unfold slotOccupied
    rw [sweepStepChannel_descs]
    by_cases hic : i = ch.completion_desc_index
    · rw [if_pos hic]
      constructor
      · intro hcontra
        dsimp only at hcontra
        rcases hcontra with h | h
        · exact absurd rfl h
        · exact absurd rfl h
      · intro hoff
        rw [hic] at hoff
        rw [show (sweepStepChannel ch).completion_desc_index =
            wrapIdx ch.num_descriptors (ch.completion_desc_index + 1) from rfl,
          show (sweepStepChannel ch).num_descriptors = ch.num_descriptors from rfl,
          offsetFrom_wrap_self ch.num_descriptors ch.completion_desc_index hcn] at hoff
        omega
    · rw [if_neg hic]
      have hshift := offsetFrom_shift ch.num_descriptors ch.completion_desc_index i hcn hi' hic
      have hnz := (offsetFrom_eq_zero_iff ch.num_descriptors ch.completion_desc_index i hcn hi').not.mpr hic
      have horig := hocc i hi'
      unfold slotOccupied at horig
      rw [show (sweepStepChannel ch).completion_desc_index =
          wrapIdx ch.num_descriptors (ch.completion_desc_index + 1) from rfl]
      rw [show (sweepStepChannel ch).num_descriptors = ch.num_descriptors from rfl]
      rw [horig]
      omega

/-- A whole completion sweep preserves the ring invariant for some
in-flight count. -/
theorem chanInv_sweep_fuel (fuel : Nat) : ∀ (ch : Channel) (k : Nat),
    chanInv ch k → ∃ k', chanInv (cleanUpSgDescriptors ch fuel).1 k' := by
  induction fuel with
  | zero =>
    intro ch k hk
    exact ⟨k, hk⟩
  | succ fuel ih =>
    intro ch k hk
    by_cases hg : sweepGuard ch
    · obtain ⟨e1, _, _⟩ := cleanUp_pos_proj ch fuel hg
      rw [e1]
      obtain ⟨_, hk2⟩ := chanInv_sweepStep ch k hk hg
      exact ih (sweepStepChannel ch) (k - 1) hk2
    · obtain ⟨e1, _, _⟩ := cleanUp_neg_proj ch fuel hg
      rw [e1]
      exact ⟨k, hk⟩

/-- Every state reachable under the non-zero-control restriction
satisfies the ring invariant for some in-flight count. -/
theorem chanInv_reachableNZ (cfg : BuildCfg) (ch : Channel)
    (h : ChanReachableNZ cfg ch) : ∃ k, chanInv ch k := by
  induction h with
  | init ch hf => exact ⟨0, chanInv_of_fresh ch hf⟩
  | step ch ch' _ hs ih =>
    obtain ⟨k, hk⟩ := ih
    cases hs with
    | submit channel ba bs f l hnz =>
      exact chanInv_submit cfg channel ch ba bs f l k hk hnz
    | hw i statusVal app2Val hi hctrl hst =>
      exact ⟨k, chanInv_hw ch i statusVal app2Val k hk hctrl⟩
    | sweep =>
      exact chanInv_sweep_fuel (ch.num_descriptors + 1) ch k hk

/-- Under the ring invariant with in-flight count `k`, the sweep
reclaims at most `k` descriptors. -/
theorem sweep_steps_le_k (ch : Channel) (k fuel : Nat) (hk : chanInv ch k) :
    (cleanUpSgDescriptors ch fuel).2.1 ≤ k := by
  obtain ⟨hcn, hpn, hkn, hpf, hocc⟩ := hk
  have hnn : 0 < ch.num_descriptors := by omega
  rcases Nat.lt_or_ge k ch.num_descriptors with hlt | hge
  · apply sweep_wall k ch fuel hnn hcn
    have hslot_lt : (ch.completion_desc_index + k) % ch.num_descriptors <
        ch.num_descriptors := Nat.mod_lt _ hnn
    have hoff : offsetFrom ch.num_descriptors ch.completion_desc_index
        ((ch.completion_desc_index + k) % ch.num_descriptors) = k :=
      offsetFrom_add _ _ _ hcn hlt
    have hnocc : ¬ slotOccupied ch
        ((ch.completion_desc_index + k) % ch.num_descriptors) := by
      rw [hocc _ hslot_lt, hoff]
      omega
    unfold slotOccupied at hnocc
    push_neg at hnocc
    rw [hnocc.2]
    simp
  · have hkeq : k = ch.num_descriptors := by omega
    rw [hkeq]
    exact sweep_steps_le_num ch fuel hnn hcn

/-- If the sweep reclaims exactly the whole in-flight window, the ring
is fully drained afterwards. -/
theorem sweep_drained_of_steps_eq (ch : Channel) (k fuel : Nat)
    (hk : chanInv ch k)
    (hsteps : (cleanUpSgDescriptors ch fuel).2.1 = k) :
    ringDrained (cleanUpSgDescriptors ch fuel).1 := by
  obtain ⟨hcn, hpn, hkn, hpf, hocc⟩ := hk
  have hnn : 0 < ch.num_descriptors := by omega
  obtain ⟨_, hd2, hd3⟩ := cleanUp_descs fuel ch hnn hcn
  have hnum : (cleanUpSgDescriptors ch fuel).1.num_descriptors = ch.num_descriptors :=
    (cleanUp_static fuel ch).1
  unfold ringDrained
  rw [hnum]
  intro i hi
  set o := offsetFrom ch.num_descriptors ch.completion_desc_index i with ho
  rcases Nat.lt_or_ge o ch.num_descriptors with holt | _
  · rcases Nat.lt_or_ge o k with hok | hok
    · have hio : i = (ch.completion_desc_index + o) % ch.num_descriptors :=
        (add_offsetFrom _ _ _ hcn hi).symm
      have hcl := hd2 o (by omega)
      rw [← hio] at hcl
      rw [hcl]
      exact ⟨rfl, rfl⟩
    · have hfree : ¬ slotOccupied ch i := by
        rw [hocc i hi]
        omega
      unfold slotOccupied at hfree
      push_neg at hfree
      have huntouched : (cleanUpSgDescriptors ch fuel).1.descriptors i =
          ch.descriptors i := by
        apply hd3
        intro j hj hij
        have hjk : j < k := by omega
        have hjn : j < ch.num_descriptors := by omega
        have hoffj : offsetFrom ch.num_descriptors ch.completion_desc_index
            ((ch.completion_desc_index + j) % ch.num_descriptors) = j :=
          offsetFrom_add _ _ _ hcn hjn
        rw [← hij] at hoffj
        omega
      rw [huntouched]
      exact hfree
  · have := offsetFrom_lt ch.num_descriptors ch.completion_desc_index i hnn
    omega

theorem inflightBound_of_inv (ch : Channel) (k : Nat) (hk : chanInv ch k) :
    inflightBound ch =
      if k % ch.num_descriptors = 0 then ch.num_descriptors
      else k % ch.num_descriptors := by
  obtain ⟨hcn, hpn, hkn, hpf, _⟩ := hk
  have hk0 : (ch.populated_desc_index + 1 +
      (ch.num_descriptors - ch.completion_desc_index)) % ch.num_descriptors =
      k % ch.num_descriptors := by
    rw [hpf, Nat.add_assoc, Nat.mod_add_mod]
    have harith : ch.completion_desc_index + k + (ch.num_descriptors - 1) +
        (1 + (ch.num_descriptors - ch.completion_desc_index)) =
        k + ch.num_descriptors + ch.num_descriptors := by omega
    rw [harith, Nat.add_mod_right, Nat.add_mod_right]
  unfold inflightBound
  rw [hk0]

/-! ### Claim C1 -/

/-- C1 (amended): for every sequence of submit and completion-sweep
operations on one channel in which every successful submission writes a
non-zero control word (non-zero length or a start/end-of-frame flag),
the completion sweep advances `completion_desc_index` by at most the
in-flight distance to one slot past `populated_desc_index`, and it
reaches that point (i.e. passes the producer cursor) exactly with the
ring fully drained (every slot's control and status zero). -/
theorem c1_ring_invariant_nz (cfg : BuildCfg) (ch : Channel)
    (h : ChanReachableNZ cfg ch) :
    sweepSteps ch ≤ inflightBound ch ∧
    (sweepSteps ch = inflightBound ch → ringDrained (sweepChannel ch)) := by
  obtain ⟨k, hk⟩ := chanInv_reachableNZ cfg ch h
  have hcn := hk.1
  have hkn := hk.2.2.1
  have hnn : 0 < ch.num_descriptors := by omega
  have hdefsteps : sweepSteps ch =
      (cleanUpSgDescriptors ch (ch.num_descriptors + 1)).2.1 := rfl
  have hble : sweepSteps ch ≤ k := by
    rw [hdefsteps]
    exact sweep_steps_le_k ch k (ch.num_descriptors + 1) hk
  have hbound := inflightBound_of_inv ch k hk
  have hkb : k ≤ inflightBound ch := by
    rw [hbound]
    split_ifs with h0
    · exact hkn
    · have hklt : k < ch.num_descriptors := by
        rcases Nat.lt_or_ge k ch.num_descriptors with hlt | hge
        · exact hlt
        · have hkeq : k = ch.num_descriptors := by omega
          rw [hkeq, Nat.mod_self] at h0
          exact absurd rfl h0
      rw [Nat.mod_eq_of_lt hklt]
  constructor
  · exact le_trans hble hkb
  · intro heq
    have hsk : sweepSteps ch = k := by omega
    have hdrained := sweep_drained_of_steps_eq ch k (ch.num_descriptors + 1) hk
      (by rw [← hdefsteps]; exact hsk)
    exact hdrained

/-- C1 witness: the amended invariant instantiated on a concrete freshly
configured 4-slot channel. -/
theorem c1_ring_invariant_nz_witness :
    sweepSteps (freshChan 4) ≤ inflightBound (freshChan 4) :=
  (c1_ring_invariant_nz buildCfgNoCache (freshChan 4)
    (ChanReachableNZ.init _ (by decide))).1

/-- C1 counterexample: with zero-length, no-flag submissions allowed
(which the code accepts and which write a zero control word), a
reachable state exists from which one completion sweep advances
`completion_desc_index` two slots — past `populated_desc_index` — while
the ring is not fully drained at the crossing point, refuting the claim
as stated. -/
theorem c1_ring_invariant_counterexample :
    ChanReachable buildCfgNoCache c1CexS5 ∧
    sweepSteps c1CexS5 = 2 ∧
    inflightBound c1CexS5 = 1 ∧
    (cleanUpSgDescriptors c1CexS5 1).1.completion_desc_index =
      wrapIdx c1CexS5.num_descriptors (c1CexS5.populated_desc_index + 1) ∧
    ¬ ringDrained (cleanUpSgDescriptors c1CexS5 1).1 := by
  refine ⟨?_, by decide, by decide, by decide, by decide⟩
  exact ChanReachable.step c1CexS4 c1CexS5
    (ChanReachable.step c1CexS3 c1CexS4
      (ChanReachable.step c1CexS2 c1CexS3
        (ChanReachable.step c1CexS1 c1CexS2
          (ChanReachable.step (freshChan 2) c1CexS1
            (ChanReachable.init _ (by decide))
            (ChanStep.submit (freshChan 2) 0 0 0 false false))
          (ChanStep.submit c1CexS1 0 100 5 false false))
        (ChanStep.submit c1CexS2 0 200 7 false false))
      (ChanStep.hw c1CexS3 0 0x80000007 0 (by decide) (by decide) (by decide)))
    (ChanStep.hw c1CexS4 1 0x80000005 0 (by decide) (by decide) (by decide))

/-! ### Claim C2 -/

/-- C2: when the probed slot `(populated_desc_index + 1) mod capacity`
has a non-zero control or status word, `transfer_block` returns `-EBUSY`
with the channel completely unchanged (both cursors and every
descriptor) and releases the interrupt exclusion it acquired. -/
theorem c2_busy_rejection (cfg : BuildCfg) (channel : Nat) (ch : Channel)
    (bufferAddr blockSize : Nat) (isFirst isLast : Bool)
    (h : (ch.descriptors (nextDescIndex ch)).control ≠ 0 ∨
         (ch.descriptors (nextDescIndex ch)).status ≠ 0) :
    transferBlock cfg channel ch bufferAddr blockSize isFirst isLast =
      (-EBUSY, ch, [LockEv.acquire, LockEv.release]) := by
  unfold transferBlock
  rw [if_pos h]

/-- C2 witness: the busy rejection on a concrete 2-slot channel whose
next slot has control word 5. -/
theorem c2_busy_rejection_witness :
    ((c2Chan.descriptors (nextDescIndex c2Chan)).control ≠ 0 ∨
     (c2Chan.descriptors (nextDescIndex c2Chan)).status ≠ 0) ∧
    transferBlock buildCfgNoCache 0 c2Chan 100 5 true true =
      (-EBUSY, c2Chan, [LockEv.acquire, LockEv.release]) :=
  ⟨Or.inl (by decide),
   c2_busy_rejection buildCfgNoCache 0 c2Chan 100 5 true true (Or.inl (by decide))⟩

/-! ### Claim C3 -/

/-- C3 (code bug): a middle-block submission of 2^26 bytes — one past
the 26-bit length field's maximum — is **not** rejected: the code only
tests `block_size > UINT32_MAX`, so `transfer_block` returns success,
advances `populated_desc_index`, and writes a control word whose length
field is 0 and whose end-of-frame flag is set even though `is_last` was
false (the excess bits corrupt the flag bits). -/
theorem c3_oversize_not_rejected :
    XILINX_AXI_DMA_SG_DESCRIPTOR_CTRL_LENGTH_MASK < 67108864 ∧
    (transferBlock buildCfgNoCache 0 (freshChan 2) 0 67108864 false false).1 = 0 ∧
    (transferBlock buildCfgNoCache 0 (freshChan 2) 0 67108864 false false).2.1.populated_desc_index =
      nextDescIndex (freshChan 2) ∧
    ((transferBlock buildCfgNoCache 0 (freshChan 2) 0 67108864 false false).2.1.descriptors
        (nextDescIndex (freshChan 2))).control &&&
      XILINX_AXI_DMA_SG_DESCRIPTOR_CTRL_LENGTH_MASK = 0 ∧
    ((transferBlock buildCfgNoCache 0 (freshChan 2) 0 67108864 false false).2.1.descriptors
        (nextDescIndex (freshChan 2))).control &&&
      XILINX_AXI_DMA_SG_DESCRIPTOR_CTRL_EOF_MASK =
      XILINX_AXI_DMA_SG_DESCRIPTOR_CTRL_EOF_MASK := by
  decide

/-! ### Claim C4 -/

set_option maxRecDepth 100000 in
/-- C4 (code bug): after a successful `init`, the TX channel's direction
field is `PERIPHERAL_TO_MEMORY` — line 931 assigns the TX slot a second
time instead of the RX slot — and the RX channel's direction is left at
its zero-initialized `MEMORY_TO_MEMORY`; `get_status` then reports these
wrong directions. -/
theorem c4_direction_bug :
    c4Init.1 = 0 ∧
    c4Init.2.2 = true ∧
    c4Init.2.1.tx.direction = Direction.peripheralToMemory ∧
    c4Init.2.1.rx.direction = Direction.memoryToMemory ∧
    (dmaGetStatus 2 XILINX_AXI_DMA_TX_CHANNEL_NUM c4Init.2.1.tx 2 1).2 =
      some (false, Direction.peripheralToMemory) ∧
    (dmaGetStatus 2 XILINX_AXI_DMA_RX_CHANNEL_NUM c4Init.2.1.rx 2 1).2 =
      some (false, Direction.memoryToMemory) ∧
    Direction.peripheralToMemory ≠ Direction.memoryToPeripheral := by
  decide

/-! ### Claim C5 -/

/-- C5 counterexample: `configure` does **not** zero-initialize the
descriptors' control/status/app fields — line 785's comment says it
"only configures fields whos default is not 0".  On a previously used
ring whose slot 0 has control 5 and a completed status word, the ring
rebuild leaves both values in place, and the subsequent first submission
inside `configure` is BUSY-rejected by exactly that stale slot, so
`configure` returns non-zero. -/
theorem c5_no_zeroing_counterexample :
    ((ringRebuild 4096 c5Used).descriptors 0).control = 5 ∧
    ((ringRebuild 4096 c5Used).descriptors 0).status = 0x80000000 ∧
    (c5Run.2.1.descriptors 0).control = 5 ∧
    (c5Run.2.1.descriptors 0).status = 0x80000000 ∧
    c5Run.1 = 1 := by
  decide

/-- C5 (amended): `configure`'s ring rebuild resets the cursors
(`populated = capacity - 1`, `completion = 0`) and rewrites every slot's
next-descriptor link to the following slot's address, with the last slot
linking back to the first — but it leaves each slot's control, status,
application and buffer-address fields exactly as they were (they are
zero before the first configuration only because the descriptor storage
is zero-initialized). -/
theorem c5_ring_rebuild (base : Nat) (ch : Channel) (i : Nat)
    (hi : i < ch.num_descriptors) :
    (ringRebuild base ch).populated_desc_index = ch.num_descriptors - 1 ∧
    (ringRebuild base ch).completion_desc_index = 0 ∧
    ((ringRebuild base ch).descriptors i).nxtdesc =
      (if i + 1 < ch.num_descriptors then descAddrOf base (i + 1)
       else descAddrOf base 0) ∧
    ((ringRebuild base ch).descriptors i).control = (ch.descriptors i).control ∧
    ((ringRebuild base ch).descriptors i).status = (ch.descriptors i).status ∧
    ((ringRebuild base ch).descriptors i).app0 = (ch.descriptors i).app0 ∧
    ((ringRebuild base ch).descriptors i).app1 = (ch.descriptors i).app1 ∧
    ((ringRebuild base ch).descriptors i).app2 = (ch.descriptors i).app2 ∧
    ((ringRebuild base ch).descriptors i).app3 = (ch.descriptors i).app3 ∧
    ((ringRebuild base ch).descriptors i).app4 = (ch.descriptors i).app4 ∧
    ((ringRebuild base ch).descriptors i).buffer_address =
      (ch.descriptors i).buffer_address := by
  unfold ringRebuild
  dsimp only
  rw [if_pos hi]
  exact ⟨rfl, rfl, rfl, rfl, rfl, rfl, rfl, rfl, rfl, rfl, rfl⟩

/-- C5 witness: the rebuilt link of slot 1 of a 2-slot ring at base
address 4096 points back to slot 0. -/
theorem c5_ring_rebuild_witness :
    ((ringRebuild 4096 (freshChan 2)).descriptors 1).nxtdesc =
      (if 1 + 1 < (freshChan 2).num_descriptors then descAddrOf 4096 (1 + 1)
       else descAddrOf 4096 0) :=
  (c5_ring_rebuild 4096 (freshChan 2) 1 (by decide)).2.2.1

/-! ### Claim C7 -/

/-- C7: with checksum inspection enabled, APP2 = 0x38 matches the TCP
error pattern (all mask bits set) and the descriptor is reported to the
callback as failed (`-EFAULT`); APP2 = 0x30 matches the UDP pattern and
is reported failed, while the TCP-specific comparison (which requires
all of 0x38) does not hold.  The concrete sweep on a completed
descriptor with APP2 = 0x38 emits exactly one failed callback before the
slot's clear. -/
theorem c7_checksum_masking :
    0x00000038 &&& XILINX_AXI_DMA_SG_DESCRIPTOR_APP2_TCP_ERR_MASK =
      XILINX_AXI_DMA_SG_DESCRIPTOR_APP2_TCP_ERR_MASK ∧
    descRetval true 0x80000000 0x00000038 = -EFAULT ∧
    0x00000030 &&& XILINX_AXI_DMA_SG_DESCRIPTOR_APP2_UDP_ERR_MASK =
      XILINX_AXI_DMA_SG_DESCRIPTOR_APP2_UDP_ERR_MASK ∧
    ¬ (0x00000030 &&& XILINX_AXI_DMA_SG_DESCRIPTOR_APP2_TCP_ERR_MASK =
      XILINX_AXI_DMA_SG_DESCRIPTOR_APP2_TCP_ERR_MASK) ∧
    descRetval true 0x80000000 0x00000030 = -EFAULT ∧
    sweepEvents c7Chan38 =
      [SweepEv.callback 0 XILINX_AXI_DMA_RX_CHANNEL_NUM (-EFAULT),
       SweepEv.clear 0] := by
  decide

/-! ### Claim C9 -/

/-- C9: if the soft-reset bit is still set on every one of the 1000
bounded polls, `init` returns `-EIO` and `irq_configure` is never called
(no channel armed); if some poll observes the bit clear, `init` returns
0 and arms the channels. -/
theorem c9_soft_reset_timeout (numTx numRx regBase : Nat)
    (reads : Nat → Nat) (dev : DeviceState) :
    ((∀ i < 1000, reads i &&& XILINX_AXI_DMA_REGS_DMACR_RESET ≠ 0) →
      (dmaInit 2 numTx numRx regBase reads dev).1 = -EIOerrno ∧
      (dmaInit 2 numTx numRx regBase reads dev).2.2 = false) ∧
    ((∃ i, i < 1000 ∧ reads i &&& XILINX_AXI_DMA_REGS_DMACR_RESET = 0) →
      (dmaInit 2 numTx numRx regBase reads dev).1 = 0 ∧
      (dmaInit 2 numTx numRx regBase reads dev).2.2 = true) := by
  constructor
  · intro hall
    have hreset : dmaResetCleared reads = false := by
      unfold dmaResetCleared
      rw [List.any_eq_false]
      intro x hx
      simp only [beq_iff_eq]
      exact hall x (List.mem_range.mp hx)
    unfold dmaInit
    rw [if_neg (by decide), if_neg (by rw [hreset]; exact Bool.false_ne_true)]
    exact ⟨rfl, rfl⟩
  · intro hex
    obtain ⟨i, hi, hz⟩ := hex
    have hreset : dmaResetCleared reads = true := by
      unfold dmaResetCleared
      rw [List.any_eq_true]
      exact ⟨i, List.mem_range.mpr hi, by simp [hz]⟩
    unfold dmaInit
    rw [if_neg (by decide), if_pos hreset]
    exact ⟨rfl, rfl⟩

/-- C9 witness: with the reset bit stuck (every poll reads 0x4), `init`
fails with `-EIO` and never arms; with the bit clear on the first poll,
`init` succeeds and arms. -/
theorem c9_soft_reset_timeout_witness :
    ((dmaInit 2 16 16 0x40000000 (fun _ => 4) ⟨zeroChannel, zeroChannel⟩).1 = -EIOerrno ∧
     (dmaInit 2 16 16 0x40000000 (fun _ => 4) ⟨zeroChannel, zeroChannel⟩).2.2 = false) ∧
    ((dmaInit 2 16 16 0x40000000 (fun _ => 0) ⟨zeroChannel, zeroChannel⟩).1 = 0 ∧
     (dmaInit 2 16 16 0x40000000 (fun _ => 0) ⟨zeroChannel, zeroChannel⟩).2.2 = true) :=
  ⟨(c9_soft_reset_timeout 16 16 0x40000000 (fun _ => 4) ⟨zeroChannel, zeroChannel⟩).1
      (fun i _ => by decide),
   (c9_soft_reset_timeout 16 16 0x40000000 (fun _ => 0) ⟨zeroChannel, zeroChannel⟩).2
      ⟨0, by omega, by decide⟩⟩

/-! ### Claim C10 -/

/-- C10: both operations that acquire the interrupt exclusion release it
on every return path: `transfer_block` (busy rejection, RX alignment
rejection, oversized-length rejection, success) and `start` (invalid
channel, success) always emit exactly one acquire followed by one
release. -/
theorem c10_lock_balance (cfg : BuildCfg) (channel : Nat) (ch : Channel)
    (bufferAddr blockSize : Nat) (isFirst isLast : Bool)
    (numChannels chanNum irqThreshold irqTimeout : Nat) (ch2 : Channel)
    (base dmasr : Nat) :
    (transferBlock cfg channel ch bufferAddr blockSize isFirst isLast).2.2 =
      [LockEv.acquire, LockEv.release] ∧
    (dmaStart numChannels chanNum irqThreshold irqTimeout ch2 base dmasr).2.1 =
      [LockEv.acquire, LockEv.release] := by
  constructor
  · unfold transferBlock
    split_ifs <;> rfl
  · unfold dmaStart
    split_ifs <;> rfl

theorem configLoop_spec (cfg : BuildCfg) (chan : Nat) :
    ∀ (rest : List BlockCfg) (b : BlockCfg) (ch : Channel) (flag : Bool),
    ConfigLoopSpec (b :: rest) flag (configLoop cfg chan ch (b :: rest) flag) := by
  intro rest
  induction rest with
  | nil =>
    intro b ch flag
    unfold ConfigLoopSpec
    simp only [configLoop, List.isEmpty_nil]
    split_ifs with ht
    · refine ⟨by simp, by simp, ?_, Or.inr rfl, ?_, ?_⟩
      · intro j hj
        simp only [List.length_cons, List.length_nil] at hj
        obtain rfl : j = 0 := by omega
        simp
      · intro h
        simp at h
      · intro _
        refine ⟨?_, ?_⟩
        · simpa using ht
        · intro j hj
          simp only [List.length_cons, List.length_nil] at hj
          omega
    · push_neg at ht
      refine ⟨by simp, by simp, ?_, Or.inl rfl, ?_, ?_⟩
      · intro j hj
        simp only [List.length_cons, List.length_nil] at hj
        obtain rfl : j = 0 := by omega
        simp
      · intro _
        refine ⟨by simp, ?_⟩
        intro j hj
        simp only [List.length_cons, List.length_nil] at hj
        obtain rfl : j = 0 := by omega
        simpa using ht
      · intro h
        simp at h
  | cons b2 rest2 ih =>
    intro b ch flag
    unfold ConfigLoopSpec
    simp only [configLoop, List.isEmpty_cons]
    split_ifs with ht
    · refine ⟨by simp, by simp, ?_, Or.inr rfl, ?_, ?_⟩
      · intro j hj
        simp only [List.length_cons, List.length_nil] at hj
        obtain rfl : j = 0 := by omega
        constructor
        · simp
        · show false = decide (0 + 1 = (b :: b2 :: rest2).length)
          symm
          rw [decide_eq_false_iff_not]
          simp only [List.length_cons]
          omega
      · intro h
        simp at h
      · intro _
        constructor
        · simpa using ht
        · intro j hj
          simp only [List.length_cons, List.length_nil] at hj
          omega
    · push_neg at ht
      have hih := ih b2 (transferBlock cfg chan ch (blockAddr chan b) b.block_size
        flag false).2.1 false
      obtain ⟨ih1, ih2, ih3, ih4, ih5, ih6⟩ := hih
      refine ⟨by simp, ?_, ?_, ih4, ?_, ?_⟩
      · simp only [List.length_cons] at ih2 ⊢
        omega
      · intro j hj
        simp only [List.length_cons] at hj
        rcases Nat.eq_zero_or_pos j with rfl | hjpos
        · constructor
          · simp
          · show false = decide (0 + 1 = (b :: b2 :: rest2).length)
            symm
            rw [decide_eq_false_iff_not]
            simp only [List.length_cons]
            omega
        · obtain ⟨j', rfl⟩ : ∃ j', j = j' + 1 := ⟨j - 1, by omega⟩
          have hj' : j' < (configLoop cfg chan (transferBlock cfg chan ch
              (blockAddr chan b) b.block_size flag false).2.1 (b2 :: rest2) false).2.2.length := by
            omega
          obtain ⟨hf, hl⟩ := ih3 j' hj'
          constructor
          · simp only [List.getD_cons_succ]
            rw [hf]
            simp
          · simp only [List.getD_cons_succ]
            rw [hl]
            rw [decide_eq_decide]
            simp only [List.length_cons]
            omega
      · intro h0
        obtain ⟨hlen, hres⟩ := ih5 h0
        constructor
        · simp only [List.length_cons] at hlen ⊢
          omega
        · intro j hj
          simp only [List.length_cons] at hj
          rcases Nat.eq_zero_or_pos j with rfl | hjpos
          · simp only [List.getD_cons_zero]
            exact ht
          · obtain ⟨j', rfl⟩ : ∃ j', j = j' + 1 := ⟨j - 1, by omega⟩
            simp only [List.getD_cons_succ]
            exact hres j' (by omega)
      · intro h1
        obtain ⟨hlast, hpre⟩ := ih6 h1
        constructor
        · simp only [List.length_cons]
          obtain ⟨m, hm⟩ : ∃ m, (configLoop cfg chan (transferBlock cfg chan ch
              (blockAddr chan b) b.block_size flag false).2.1
                (b2 :: rest2) false).2.2.length = m + 1 :=
            ⟨(configLoop cfg chan (transferBlock cfg chan ch
              (blockAddr chan b) b.block_size flag false).2.1
                (b2 :: rest2) false).2.2.length - 1, by omega⟩
          rw [hm]
          simp only [Nat.add_sub_cancel, List.getD_cons_succ]
          rw [hm] at hlast
          simpa using hlast
        · intro j hj
          simp only [List.length_cons] at hj
          rcases Nat.eq_zero_or_pos j with rfl | hjpos
          · simp only [List.getD_cons_zero]
            exact ht
          · obtain ⟨j', rfl⟩ : ∃ j', j = j' + 1 := ⟨j - 1, by omega⟩
            simp only [List.getD_cons_succ]
            exact hpre j' (by omega)

/-! ### Claim C8 -/

/-- C8 (amended): for every block chain passed to a `configure` call
that passes validation, the per-block submission loop marks only the
first block `is_first` and only the last block `is_last`, aborts the
chain at the first failing block (every earlier submission succeeded and
nothing after the failure is submitted), and `configure` returns 0 on
success or the C logical-OR truth value 1 on failure — a value
distinguishable from success, but not the failing block's error code. -/
theorem c8_block_loop (cfg : BuildCfg) (numChannels channel base : Nat)
    (ch : Channel) (dcfg : DmaCfg)
    (hch : channel < numChannels)
    (hsa : dcfg.headBlock.source_addr_adj = AddrAdj.increment ∨
      dcfg.headBlock.source_addr_adj = AddrAdj.noChange)
    (hda : dcfg.headBlock.dest_addr_adj = AddrAdj.increment ∨
      dcfg.headBlock.dest_addr_adj = AddrAdj.noChange)
    (hdtx : channel = XILINX_AXI_DMA_TX_CHANNEL_NUM →
      dcfg.channel_direction = Direction.memoryToPeripheral)
    (hdrx : channel = XILINX_AXI_DMA_RX_CHANNEL_NUM →
      dcfg.channel_direction = Direction.peripheralToMemory)
    (hlc : dcfg.linked_channel = XILINX_AXI_DMA_LINKED_CHANNEL_FULL_CSUM_OFFLOAD ∨
      dcfg.linked_channel = XILINX_AXI_DMA_LINKED_CHANNEL_NO_CSUM_OFFLOAD) :
    ConfigLoopSpec (dcfg.headBlock :: dcfg.tailBlocks) true
      (dmaConfigure cfg numChannels channel base ch dcfg) := by
  have hlcsome : ∀ chx : Channel,
      applyLinkedChannel channel chx dcfg.linked_channel ≠ none := by
    intro chx
    unfold applyLinkedChannel
    rcases hlc with h | h
    · rw [if_pos h]
      split <;> simp
    · rw [if_neg (by rw [h]; decide), if_pos h]
      simp
  unfold dmaConfigure
  rw [if_neg (by omega),
    if_neg (by rcases hsa with h | h <;> rw [h] <;> decide),
    if_neg (by rcases hda with h | h <;> rw [h] <;> decide),
    if_neg (by rcases hsa with h | h <;> rw [h] <;> simp),
    if_neg (by rcases hda with h | h <;> rw [h] <;> simp),
    if_neg (by rintro ⟨h1, h2⟩; exact h2 (hdtx h1)),
    if_neg (by rintro ⟨h1, h2⟩; exact h2 (hdrx h1))]
  split
  · rename_i hnone
    exact absurd hnone (hlcsome _)
  · exact configLoop_spec cfg channel dcfg.tailBlocks dcfg.headBlock _ true

/-- C8 witness: the loop specification on a concrete valid single-block
configuration. -/
theorem c8_block_loop_witness :
    ConfigLoopSpec (c5Cfg.headBlock :: c5Cfg.tailBlocks) true
      (dmaConfigure buildCfgNoCache 2 0 4096 (freshChan 2) c5Cfg) :=
  c8_block_loop buildCfgNoCache 2 0 4096 (freshChan 2) c5Cfg
    (by decide) (Or.inl rfl) (Or.inl rfl) (fun _ => rfl)
    (fun h => absurd h (by decide)) (Or.inr rfl)

/-- C8 counterexample: when the first block's submission is rejected
with `-EBUSY`, `configure` returns 1 — not the rejection value, and not
a negative errno at all — so the claim's "returns the rejection" is
false as stated. -/
theorem c8_return_value_counterexample :
    c8Run.1 = 1 ∧
    (c8Run.2.2.getD 0 dummyCall).result = -EBUSY ∧
    (1 : Int) ≠ -EBUSY ∧
    ¬ c8Run.1 < 0 := by
  decide

theorem sweep_events_trace (fuel : Nat) : ∀ (ch : Channel),
    ch.hasCompletionCallback = true →
    0 < ch.num_descriptors →
    ch.completion_desc_index < ch.num_descriptors →
    ∃ prs : List (Nat × Int),
      (cleanUpSgDescriptors ch fuel).2.2 =
        sweepTrace (callbackChannel ch.direction) prs ∧
      prs.map Prod.fst =
        (List.range (cleanUpSgDescriptors ch fuel).2.1).map
          (fun j => (ch.completion_desc_index + j) % ch.num_descriptors) := by
  induction fuel with
  | zero =>
    intro ch _ _ _
    exact ⟨[], rfl, rfl⟩
  | succ fuel ih =>
    intro ch hcb hn hc
    by_cases hg : sweepGuard ch
    · obtain ⟨_, e2, e3⟩ := cleanUp_pos_proj ch fuel hg
      have hcb2 : (sweepStepChannel ch).hasCompletionCallback = true := hcb
      have hn2 : 0 < (sweepStepChannel ch).num_descriptors := hn
      have hc2 : (sweepStepChannel ch).completion_desc_index <
          (sweepStepChannel ch).num_descriptors := wrapIdx_lt _ _ hn
      obtain ⟨prs2, hev2, hmap2⟩ := ih (sweepStepChannel ch) hcb2 hn2 hc2
      refine ⟨(ch.completion_desc_index,
        descRetval ch.check_csum_in_isr
          (ch.descriptors ch.completion_desc_index).status
          (ch.descriptors ch.completion_desc_index).app2) :: prs2, ?_, ?_⟩
      · rw [e3]
        have hstep : sweepStepEvents ch =
            [SweepEv.callback ch.completion_desc_index
              (callbackChannel ch.direction)
              (descRetval ch.check_csum_in_isr
                (ch.descriptors ch.completion_desc_index).status
                (ch.descriptors ch.completion_desc_index).app2),
             SweepEv.clear ch.completion_desc_index] := by
          unfold sweepStepEvents
          rw [hcb]
          rfl
        rw [hstep, hev2]
        rfl
      · rw [e2]
        simp only [List.map_cons]
        rw [hmap2, List.range_succ_eq_map]
        simp only [List.map_cons, List.map_map]
        have hhead : (ch.completion_desc_index + 0) % ch.num_descriptors =
            ch.completion_desc_index := by
          rw [Nat.add_zero, Nat.mod_eq_of_lt hc]
        rw [hhead]
        congr 1
        apply List.map_congr_left
        intro j _
        simp only [Function.comp_apply]
        have hwrap : (sweepStepChannel ch).completion_desc_index =
            (ch.completion_desc_index + 1) % ch.num_descriptors :=
          wrapIdx_eq_mod _ _ (by omega)
        rw [show (sweepStepChannel ch).num_descriptors = ch.num_descriptors from rfl,
          hwrap, Nat.mod_add_mod]
        congr 1
        omega
    · obtain ⟨_, e2, e3⟩ := cleanUp_neg_proj ch fuel hg
      rw [e2, e3]
      exact ⟨[], rfl, rfl⟩

/-- At most one full lap: the ring positions processed by a sweep of at
most `n` steps are pairwise distinct. -/
theorem sweepIdx_nodup (n c steps : Nat) (hc : c < n) (hs : steps ≤ n) :
    ((List.range steps).map (fun j => (c + j) % n)).Nodup := by
  apply List.Nodup.map_on
  · intro x hx y hy hxy
    have hxs := List.mem_range.mp hx
    have hys := List.mem_range.mp hy
    have h1 : offsetFrom n c ((c + x) % n) = x := offsetFrom_add n c x hc (by omega)
    have h2 : offsetFrom n c ((c + y) % n) = y := offsetFrom_add n c y hc (by omega)
    rw [← h1, ← h2, hxy]
  · exact List.nodup_range steps

/-- A slot that is not in the processed list gets no callback and no
clear event. -/
theorem sweepTrace_count_zero (chan i : Nat) (prs : List (Nat × Int))
    (h : i ∉ prs.map Prod.fst) :
    (sweepTrace chan prs).countP (isCbFor i) = 0 ∧
    (sweepTrace chan prs).countP (isClearFor i) = 0 := by
  induction prs with
  | nil => exact ⟨rfl, rfl⟩
  | cons p rest ih =>
    simp only [List.map_cons, List.mem_cons] at h
    push_neg at h
    obtain ⟨h1, h2⟩ := ih h.2
    have hne : (p.1 == i) = false := beq_eq_false_iff_ne.mpr (fun he => h.1 he.symm)
    unfold sweepTrace
    rw [List.countP_cons, List.countP_cons, List.countP_cons, List.countP_cons, h1, h2]
    simp [isCbFor, isClearFor, hne]

/-- For each processed slot: exactly one callback event, exactly one
clear event, and the clear comes immediately after the callback. -/
theorem sweepTrace_decomp (chan i : Nat) (prs : List (Nat × Int))
    (hmem : i ∈ prs.map Prod.fst) (hnd : (prs.map Prod.fst).Nodup) :
    (∃ res l1 l3, sweepTrace chan prs =
      l1 ++ SweepEv.callback i chan res :: SweepEv.clear i :: l3) ∧
    (sweepTrace chan prs).countP (isCbFor i) = 1 ∧
    (sweepTrace chan prs).countP (isClearFor i) = 1 := by
  induction prs with
  | nil => simp at hmem
  | cons p rest ih =>
    simp only [List.map_cons, List.mem_cons] at hmem
    simp only [List.map_cons, List.nodup_cons] at hnd
    obtain ⟨hnotin, hnd2⟩ := hnd
    rcases hmem with heq | hmem2
    · have hrest : i ∉ rest.map Prod.fst := heq ▸ hnotin
      obtain ⟨hz1, hz2⟩ := sweepTrace_count_zero chan i rest hrest
      refine ⟨⟨p.2, [], sweepTrace chan rest, ?_⟩, ?_, ?_⟩
      · simp only [sweepTrace, List.nil_append]
        rw [← heq]
      · simp only [sweepTrace]
        rw [List.countP_cons, List.countP_cons, hz1]
        simp [isCbFor, isClearFor, heq]
      · simp only [sweepTrace]
        rw [List.countP_cons, List.countP_cons, hz2]
        simp [isCbFor, isClearFor, heq]
    · have hpne : (p.1 == i) = false :=
        beq_eq_false_iff_ne.mpr (fun he => hnotin (he ▸ hmem2))
      obtain ⟨⟨res, l1, l3, hdec⟩, hc1, hc2⟩ := ih hmem2 hnd2
      refine ⟨⟨res, SweepEv.callback p.1 chan p.2 :: SweepEv.clear p.1 :: l1, l3, ?_⟩, ?_, ?_⟩
      · simp only [sweepTrace]
        rw [hdec]
        simp [List.cons_append]
      · simp only [sweepTrace]
        rw [List.countP_cons, List.countP_cons, hc1]
        simp [isCbFor, isClearFor, hpne]
      · simp only [sweepTrace]
        rw [List.countP_cons, List.countP_cons, hc2]
        simp [isCbFor, isClearFor, hpne]

/-! ### Claim C6 -/

/-- C6: with a completion callback registered, each descriptor the sweep
observes complete (or errored) produces exactly one callback invocation,
and its slot's control/status clear event comes only after (in fact
immediately after) that invocation; moreover the submission operation
never changes `completion_desc_index` and never clears a non-zero
control or status word of any descriptor, so within the
submit/write-back/sweep machinery the sweep is the sole operation that
advances the consumer cursor or frees a slot (`start`/`stop` do not
touch the channel state at all in the model). -/
theorem c6_exactly_once (ch : Channel) (fuel : Nat)
    (hcb : ch.hasCompletionCallback = true)
    (hn : 0 < ch.num_descriptors)
    (hc : ch.completion_desc_index < ch.num_descriptors) :
    (cleanUpSgDescriptors ch fuel).2.1 ≤ ch.num_descriptors ∧
    (∀ j < (cleanUpSgDescriptors ch fuel).2.1,
      (cleanUpSgDescriptors ch fuel).2.2.countP
        (isCbFor ((ch.completion_desc_index + j) % ch.num_descriptors)) = 1 ∧
      (cleanUpSgDescriptors ch fuel).2.2.countP
        (isClearFor ((ch.completion_desc_index + j) % ch.num_descriptors)) = 1 ∧
      ∃ res l1 l3, (cleanUpSgDescriptors ch fuel).2.2 =
        l1 ++ SweepEv.callback ((ch.completion_desc_index + j) % ch.num_descriptors)
                (callbackChannel ch.direction) res ::
              SweepEv.clear ((ch.completion_desc_index + j) % ch.num_descriptors) :: l3) ∧
    (∀ (cfg : BuildCfg) (channel bufferAddr blockSize : Nat) (isFirst isLast : Bool),
      (transferBlock cfg channel ch bufferAddr blockSize isFirst isLast).2.1.completion_desc_index =
        ch.completion_desc_index ∧
      ∀ i, ((ch.descriptors i).control ≠ 0 →
          ((transferBlock cfg channel ch bufferAddr blockSize isFirst
            isLast).2.1.descriptors i).control ≠ 0) ∧
        ((ch.descriptors i).status ≠ 0 →
          ((transferBlock cfg channel ch bufferAddr blockSize isFirst
            isLast).2.1.descriptors i).status ≠ 0)) := by
  have hsteps : (cleanUpSgDescriptors ch fuel).2.1 ≤ ch.num_descriptors :=
    sweep_steps_le_num ch fuel hn hc
  obtain ⟨prs, hev, hmap⟩ := sweep_events_trace fuel ch hcb hn hc
  have hnd : (prs.map Prod.fst).Nodup := by
    rw [hmap]
    exact sweepIdx_nodup ch.num_descriptors ch.completion_desc_index _ hc hsteps
  refine ⟨hsteps, ?_, ?_⟩
  · intro j hj
    have hmem : (ch.completion_desc_index + j) % ch.num_descriptors ∈
        prs.map Prod.fst := by
      rw [hmap]
      exact List.mem_map.mpr ⟨j, List.mem_range.mpr hj, rfl⟩
    obtain ⟨⟨res, l1, l3, hdec⟩, hc1, hc2⟩ :=
      sweepTrace_decomp (callbackChannel ch.direction)
        ((ch.completion_desc_index + j) % ch.num_descriptors) prs hmem hnd
    rw [hev]
    exact ⟨hc1, hc2, res, l1, l3, hdec⟩
  · intro cfg channel bufferAddr blockSize isFirst isLast
    rcases transferBlock_cases cfg channel ch bufferAddr blockSize isFirst isLast with
      hch | hch | ⟨hc0, hs0, hch⟩
    · rw [hch]
      exact ⟨rfl, fun i => ⟨fun h => h, fun h => h⟩⟩
    · rw [hch]
      dsimp only
      refine ⟨rfl, fun i => ⟨?_, ?_⟩⟩
      · intro h
        by_cases hin : i = nextDescIndex ch
        · unfold updateDesc
          rw [if_pos hin]
          exact h
        · rw [updateDesc_other _ _ _ _ hin]
          exact h
      · intro h
        by_cases hin : i = nextDescIndex ch
        · unfold updateDesc
          rw [if_pos hin]
          exact h
        · rw [updateDesc_other _ _ _ _ hin]
          exact h
    · rw [hch]
      dsimp only
      refine ⟨rfl, fun i => ⟨?_, ?_⟩⟩
      · intro h
        by_cases hin : i = nextDescIndex ch
        · exact absurd (hin ▸ h) (not_not_intro hc0)
        · rw [updateDesc_other _ _ _ _ hin, updateDesc_other _ _ _ _ hin]
          exact h
      · intro h
        by_cases hin : i = nextDescIndex ch
        · exact absurd (hin ▸ h) (not_not_intro hs0)
        · rw [updateDesc_other _ _ _ _ hin, updateDesc_other _ _ _ _ hin]
          exact h

/-- C6 witness: the exactly-once property on the concrete one-slot
completed channel. -/
theorem c6_exactly_once_witness :
    (cleanUpSgDescriptors c7Chan38 2).2.1 ≤ c7Chan38.num_descriptors :=
  (c6_exactly_once c7Chan38 2 rfl (by decide) (by decide)).1
